import Mathlib

/-!
Shallow embedding of the SSD1315 OLED driver core
(`src/lib/Adafruit_SSD1315.js`): bit-packed framebuffer, dirty-window
tracking, rotation mapping, display flush, scroll and startup command
building.  The framebuffer is modelled as a total function from byte
indices to byte values; `Uint8Array` stores mask written values to 8 bits.
Coordinates arriving from callers are JS numbers, modelled as `Int`;
values known non-negative after clipping are converted to `Nat`.
-/

namespace SSD1315

/-! ### Constants from the source -/

def SSD1315_MEMORY_MODE : ℤ := 0x20
def SSD1315_COLUMN_ADDR : ℤ := 0x21
def SSD1315_PAGE_ADDR : ℤ := 0x22
def SSD1315_RIGHT_HORIZONTAL_SCROLL : ℤ := 0x26
def SSD1315_LEFT_HORIZONTAL_SCROLL : ℤ := 0x27
def SSD1315_VERTICAL_AND_RIGHT_HORIZONTAL_SCROLL : ℤ := 0x29
def SSD1315_VERTICAL_AND_LEFT_HORIZONTAL_SCROLL : ℤ := 0x2A
def SSD1315_DEACTIVATE_SCROLL : ℤ := 0x2E
def SSD1315_ACTIVATE_SCROLL : ℤ := 0x2F
def SSD1315_SET_DISPLAY_START_LINE_BASE : ℤ := 0x40
def SSD1315_SET_CONTRAST : ℤ := 0x81
def SSD1315_CHARGE_PUMP : ℤ := 0x8D
def SSD1315_SET_VERTICAL_SCROLL_AREA : ℤ := 0xA3
def SSD1315_DISPLAY_ALL_ON_RESUME : ℤ := 0xA4
def SSD1315_NORMAL_DISPLAY : ℤ := 0xA6
def SSD1315_SET_MULTIPLEX : ℤ := 0xA8
def SSD1315_DISPLAY_OFF : ℤ := 0xAE
def SSD1315_DISPLAY_ON : ℤ := 0xAF
def SSD1315_SEG_REMAP_FLIP : ℤ := 0xA1
def SSD1315_COM_SCAN_DEC : ℤ := 0xC8
def SSD1315_SET_DISPLAY_OFFSET : ℤ := 0xD3
def SSD1315_SET_DISPLAY_CLOCK_DIV : ℤ := 0xD5
def SSD1315_SET_PRECHARGE : ℤ := 0xD9
def SSD1315_SET_COM_PINS : ℤ := 0xDA
def SSD1315_SET_VCOM_DETECT : ℤ := 0xDB

def SSD1315_EXTERNALVCC : ℕ := 0x01
def SSD1315_SWITCHCAPVCC : ℕ := 0x02

def SSD1315_BLACK : ℕ := 0
def SSD1315_WHITE : ℕ := 1
def SSD1315_INVERSE : ℕ := 2

def SSD1315_VLINE_PRE_MASK : List ℕ := [0x00, 0x80, 0xC0, 0xE0, 0xF0, 0xF8, 0xFC, 0xFE]
def SSD1315_VLINE_POST_MASK : List ℕ := [0x00, 0x01, 0x03, 0x07, 0x0F, 0x1F, 0x3F, 0x7F]

def SSD1315_INIT_SEQ_1 : List ℤ := [SSD1315_DISPLAY_OFF, SSD1315_SET_DISPLAY_CLOCK_DIV, 0x80]

def SSD1315_INIT_SEQ_2 : List ℤ :=
  [SSD1315_MEMORY_MODE, 0x00, SSD1315_SEG_REMAP_FLIP, SSD1315_COM_SCAN_DEC,
   SSD1315_SET_VCOM_DETECT, 0x20]

def SSD1315_INIT_SEQ_3 : List ℤ :=
  [SSD1315_DISPLAY_ALL_ON_RESUME, SSD1315_NORMAL_DISPLAY, SSD1315_DEACTIVATE_SCROLL]

/-! ### Display state

The framebuffer is a `Uint8Array` of size `WIDTH * ((HEIGHT + 7) / 8)`;
we model it as a total function on byte indices.  The four dirty window
trackers live on the instance (inherited from the `Adafruit_GrayOLED`
base class) and hold JS numbers. -/

structure DState where
  buffer : Nat → Nat
  window_x1 : ℤ
  window_y1 : ℤ
  window_x2 : ℤ
  window_y2 : ℤ

/-- A `Uint8Array` store: writing masks the value to 8 bits. -/
def setByte (buf : Nat → Nat) (i v : ℕ) : Nat → Nat :=
  fun j => if j = i then v &&& 255 else buf j

/-- The three-case `switch (color)` used for single-byte masked writes in
`_drawFastHLineInternal` (with `mask = value`, per column) and in the
leading/trailing partial-byte steps of `_drawFastVLineInternal`:
`|=` for WHITE, `&= ~` for BLACK, `^=` for INVERSE, and no write for
any other color (the switch has no default branch). -/
def applyMaskAt (color : ℕ) (i m : ℕ) (buf : Nat → Nat) : Nat → Nat :=
  if color = SSD1315_WHITE then setByte buf i (buf i ||| m)
  else if color = SSD1315_BLACK then setByte buf i (buf i &&& (255 ^^^ m))
  else if color = SSD1315_INVERSE then setByte buf i (buf i ^^^ m)
  else buf

/-! ### Horizontal line internals -/

/-- One `while(w--) buffer[index++] op= value;` loop from
`_drawFastHLineInternal`, parameterized by the per-byte operation of the
selected `switch` case.  Also returns the list of byte indices accessed. -/
def hlineLoop (op : ℕ → ℕ) (buf : Nat → Nat) (index w : ℕ) : (Nat → Nat) × List ℕ :=
  match w with
  | 0 => (buf, [])
  | n + 1 =>
    let r := hlineLoop op (setByte buf index (op (buf index))) (index + 1) n
    (r.1, index :: r.2)

/-- The `switch (color)` of `_drawFastHLineInternal` over the three run
loops; `value = 1 << (y & 7)`, `index = x + (y >> 3) * WIDTH` are computed
by the caller.  No case matches for other colors, so nothing is written. -/
def hlineCore (W : ℕ) (x y w : ℕ) (color : ℕ) (buf : Nat → Nat) : (Nat → Nat) × List ℕ :=
  let index := x + (y / 8) * W
  let value := 1 <<< (y % 8)
  if color = SSD1315_WHITE then hlineLoop (fun b => b ||| value) buf index w
  else if color = SSD1315_BLACK then hlineLoop (fun b => b &&& (255 ^^^ value)) buf index w
  else if color = SSD1315_INVERSE then hlineLoop (fun b => b ^^^ value) buf index w
  else (buf, [])

/-- `_drawFastHLineInternal(x, y, w, color)`: clip the run, expand the
dirty window, then run the per-column loop.  The second component is the
list of framebuffer byte indices accessed. -/
def _drawFastHLineInternal (W H : ℕ) (x y w : ℤ) (color : ℕ) (st : DState) :
    DState × List ℕ :=
  if 0 ≤ y ∧ y < (H : ℤ) then
    -- Clip left
    let x1 : ℤ := if x < 0 then 0 else x
    let w1 : ℤ := if x < 0 then w + x else w
    -- Clip right
    let w2 : ℤ := if x1 + w1 > (W : ℤ) then (W : ℤ) - x1 else w1
    if 0 < w2 then
      let st1 : DState :=
        { st with
          window_x1 := min st.window_x1 x1
          window_y1 := min st.window_y1 y
          window_x2 := max st.window_x2 (x1 + w2 - 1)
          window_y2 := max st.window_y2 y }
      let r := hlineCore W x1.toNat y.toNat w2.toNat color st1.buffer
      ({ st1 with buffer := r.1 }, r.2)
    else (st, [])
  else (st, [])

/-! ### Vertical line internals -/

/-- One of the two `do { ...; index += WIDTH; hTemp -= 8; } while (hTemp >= 8);`
whole-byte loops of `_drawFastVLineInternal`, parameterized by the
per-byte store (`b ^ 0xFF` for INVERSE, the constant `val` otherwise).
Returns the final buffer, the final `index`, the final `hTemp`, and the
list of byte indices accessed. -/
def vlineByteLoop (store : ℕ → ℕ) (W : ℕ) (buf : Nat → Nat) (index hTemp : ℕ) :
    (Nat → Nat) × ℕ × ℕ × List ℕ :=
  let buf1 := setByte buf index (store (buf index))
  if h8 : 8 ≤ hTemp - 8 then
    let r := vlineByteLoop store W buf1 (index + W) (hTemp - 8)
    (r.1, r.2.1, r.2.2.1, index :: r.2.2.2)
  else
    (buf1, index + W, hTemp - 8, [index])
termination_by hTemp
decreasing_by omega

/-- The whole-byte middle loop plus trailing partial byte of
`_drawFastVLineInternal`, starting from a byte-aligned position:
`index` points at the current byte, `h` rows remain. -/
def vlineTail (W : ℕ) (color : ℕ) (buf : Nat → Nat) (index h : ℕ) :
    (Nat → Nat) × List ℕ :=
  -- Write solid bytes while we can - effectively 8 rows at a time
  let mid :=
    if 8 ≤ h then
      if color = SSD1315_INVERSE then
        vlineByteLoop (fun b => b ^^^ 0xFF) W buf index h
      else
        vlineByteLoop (fun _ => if color ≠ SSD1315_BLACK then 0xFF else 0x00) W buf index h
    else (buf, index, h, [])
  let buf2 := mid.1
  let index2 := mid.2.1
  let h2 := mid.2.2.1
  let tr2 := mid.2.2.2
  -- Do the final partial byte, if necessary
  if h2 ≠ 0 then
    let mask := SSD1315_VLINE_POST_MASK.getD (h2 &&& 7) 0
    (applyMaskAt color index2 mask buf2, tr2 ++ [index2])
  else (buf2, tr2)

/-- Body of `_drawFastVLineInternal` after clipping (`x < W`, `0 ≤ y`,
`0 < h`, all natural): leading partial byte, whole-byte middle loop,
trailing partial byte. -/
def vlineCore (W : ℕ) (x y h : ℕ) (color : ℕ) (buf : Nat → Nat) :
    (Nat → Nat) × List ℕ :=
  let index := x + (y / 8) * W
  let mod0 := y % 8
  -- do the first partial byte, if necessary - this requires some masking
  let pre :=
    if mod0 ≠ 0 then
      let mod1 := 8 - mod0
      let mask0 := SSD1315_VLINE_PRE_MASK.getD mod1 0
      -- adjust the mask if the run does not reach the end of this byte
      let mask := if h < mod1 then mask0 &&& (0xFF >>> (mod1 - h)) else mask0
      (applyMaskAt color index mask buf, index + W, mod1, [index])
    else (buf, index, 0, ([] : List ℕ))
  let buf1 := pre.1
  let index1 := pre.2.1
  let mod1 := pre.2.2.1
  let tr1 := pre.2.2.2
  if mod1 ≤ h then
    let r := vlineTail W color buf1 index1 (h - mod1)
    (r.1, tr1 ++ r.2)
  else (buf1, tr1)

/-- `_drawFastVLineInternal(x, y, h, color)`: clip the run, expand the
dirty window, then run the optimized partial/whole/partial byte writes.
The second component is the list of framebuffer byte indices accessed. -/
def _drawFastVLineInternal (W H : ℕ) (x y h : ℤ) (color : ℕ) (st : DState) :
    DState × List ℕ :=
  if 0 ≤ x ∧ x < (W : ℤ) then
    -- Clip top
    let y1 : ℤ := if y < 0 then 0 else y
    let h1 : ℤ := if y < 0 then h + y else h
    -- Clip bottom
    let h2 : ℤ := if y1 + h1 > (H : ℤ) then (H : ℤ) - y1 else h1
    if 0 < h2 then
      let st1 : DState :=
        { st with
          window_x1 := min st.window_x1 x
          window_y1 := min st.window_y1 y1
          window_x2 := max st.window_x2 x
          window_y2 := max st.window_y2 (y1 + h2 - 1) }
      let r := vlineCore W x.toNat y1.toNat h2.toNat color st1.buffer
      ({ st1 with buffer := r.1 }, r.2)
    else (st, [])
  else (st, [])

/-! ### Rotation mapping entry points -/

/-- `drawFastHLine(x, y, w, color)`: remap coordinates by the current
rotation, dispatching to the vertical internal primitive at rotations 1
and 3 and to the horizontal one otherwise. -/
def drawFastHLine (W H : ℕ) (rotation : ℕ) (x y w : ℤ) (color : ℕ) (st : DState) :
    DState × List ℕ :=
  match rotation with
  | 1 =>
    -- 90 degree rotation, swap x & y for rotation, then invert x
    let xs := y
    let ys := x
    let x1 := (W : ℤ) - xs - 1
    _drawFastVLineInternal W H x1 ys w color st
  | 2 =>
    -- 180 degree rotation, invert x and y, then shift x around for width.
    let x1 := (W : ℤ) - x - 1
    let y1 := (H : ℤ) - y - 1
    let x2 := x1 - (w - 1)
    _drawFastHLineInternal W H x2 y1 w color st
  | 3 =>
    -- 270 degree rotation, swap x & y, invert y, adjust y for w
    let xs := y
    let ys := x
    let y1 := (H : ℤ) - ys - 1
    let y2 := y1 - (w - 1)
    _drawFastVLineInternal W H xs y2 w color st
  | _ => _drawFastHLineInternal W H x y w color st

/-- `drawFastVLine(x, y, h, color)`: remap coordinates by the current
rotation, dispatching to the horizontal internal primitive at rotations 1
and 3 and to the vertical one otherwise. -/
def drawFastVLine (W H : ℕ) (rotation : ℕ) (x y h : ℤ) (color : ℕ) (st : DState) :
    DState × List ℕ :=
  match rotation with
  | 1 =>
    -- 90 degree rotation, swap x & y, invert x, adjust x for h
    let xs := y
    let ys := x
    let x1 := (W : ℤ) - xs - 1
    let x2 := x1 - (h - 1)
    _drawFastHLineInternal W H x2 ys h color st
  | 2 =>
    -- 180 degree rotation, invert x and y, then shift y around for height.
    let x1 := (W : ℤ) - x - 1
    let y1 := (H : ℤ) - y - 1
    let y2 := y1 - (h - 1)
    _drawFastVLineInternal W H x1 y2 h color st
  | 3 =>
    -- 270 degree rotation, swap x & y, then invert y
    let xs := y
    let ys := x
    let y1 := (H : ℤ) - ys - 1
    _drawFastHLineInternal W H xs y1 h color st
  | _ => _drawFastVLineInternal W H x y h color st

/-! ### Dirty-window reset and flush -/

/-- Modelled from the spec: `_resetDirtyWindow` is inherited from the
external `Adafruit_GrayOLED` base class (not part of this repository);
the spec describes it as resetting the tracked rectangle to "an
empty/maximal-inverted state (e.g. `x1 > x2` or using max/min
sentinels)".  We model the min-trackers reset to a maximal sentinel and
the max-trackers to `-1`, so the window is empty (`x1 > x2`). -/
def _resetDirtyWindow (W H : ℕ) (st : DState) : DState :=
  { st with
    window_x1 := (W : ℤ)
    window_y1 := (H : ℤ)
    window_x2 := -1
    window_y2 := -1 }

/-- Fresh display state: zeroed framebuffer (`new Uint8Array`), dirty
window reset (modelled from the spec: "dirty window reset at
construction"). -/
def initialState (W H : ℕ) : DState :=
  _resetDirtyWindow W H
    { buffer := fun _ => 0, window_x1 := 0, window_y1 := 0, window_x2 := 0, window_y2 := 0 }

/-- `display()`: flush the dirty window one 8-row page at a time.
Returns the new state (window reset), the list of emitted command lists,
and the list of emitted data blocks (framebuffer byte slices). -/
def display (W H : ℕ) (st : DState) : DState × List (List ℤ) × List (List ℕ) :=
  let colStart := st.window_x1
  let to_write := st.window_x2 - st.window_x1 + 1
  let pageStart := Int.tdiv st.window_y1 8
  let pageEnd := Int.tdiv st.window_y2 8 + 1
  if 0 < to_write then
    let pages := (List.range (pageEnd - pageStart).toNat).map (fun k => pageStart + k)
    let cmds := pages.map (fun page =>
      [SSD1315_PAGE_ADDR, page, page + 1, SSD1315_COLUMN_ADDR, colStart,
       colStart + to_write - 1])
    let datas := pages.map (fun page =>
      (List.range to_write.toNat).map (fun k => st.buffer ((colStart + page * (W : ℤ)).toNat + k)))
    (_resetDirtyWindow W H st, cmds, datas)
  else (_resetDirtyWindow W H st, [], [])

/-! ### Scrolling -/

/-- `_startScrollInternal(dir, startPage, stopPage)`: the two command
lists sent (deactivate + vertical scroll area, then the directional
scroll command with its parameters and activate-scroll). -/
def _startScrollInternal (W H : ℕ) (dir : String) (startPage stopPage : ℕ) :
    List (List ℤ) :=
  let W8 : ℤ := Int.land (W : ℤ) 0xFF
  let H8 : ℤ := Int.land (H : ℤ) 0xFF
  let frames : ℤ := 0x07
  let verticalIncrement0 : ℤ := min 1 H8
  let first : List ℤ := [SSD1315_DEACTIVATE_SCROLL, SSD1315_SET_VERTICAL_SCROLL_AREA, 0x00, H8]
  -- (scrollCommand, horizontalIncrement, verticalIncrement) after the switch
  let s : ℤ × ℤ × ℤ :=
    if dir = "left" then (SSD1315_VERTICAL_AND_LEFT_HORIZONTAL_SCROLL, 1, 0)
    else if dir = "right" then (SSD1315_VERTICAL_AND_RIGHT_HORIZONTAL_SCROLL, 1, 0)
    else if dir = "left diagonal" then
      (SSD1315_VERTICAL_AND_LEFT_HORIZONTAL_SCROLL, 1, verticalIncrement0)
    else if dir = "right diagonal" then
      (SSD1315_VERTICAL_AND_RIGHT_HORIZONTAL_SCROLL, 1, verticalIncrement0)
    else if dir = "up" then
      (SSD1315_VERTICAL_AND_LEFT_HORIZONTAL_SCROLL, 0, verticalIncrement0)
    else (SSD1315_VERTICAL_AND_LEFT_HORIZONTAL_SCROLL, 1, verticalIncrement0)
  let commandList : List ℤ :=
    [s.1, s.2.1, Int.land (startPage : ℤ) 0x07, Int.land frames 0x07,
     Int.land (stopPage : ℤ) 0x07, Int.land s.2.2 0x7F, 0x00,
     Int.land (W8 - 1) 0xFF, SSD1315_ACTIVATE_SCROLL]
  [first, commandList]

def startscrollright (W H : ℕ) (start stop : ℕ) : List (List ℤ) :=
  let dir : String := "right"
  _startScrollInternal W H dir start stop

def startscrollleft (W H : ℕ) (start stop : ℕ) : List (List ℤ) :=
  let dir : String := "left"
  _startScrollInternal W H dir start stop

def startscrolldiagright (W H : ℕ) (start stop : ℕ) : List (List ℤ) :=
  let dir : String := "right diagonal"
  _startScrollInternal W H dir start stop

def startscrolldiagleft (W H : ℕ) (start stop : ℕ) : List (List ℤ) :=
  let dir : String := "left diagonal"
  _startScrollInternal W H dir start stop

def startscrollup (W H : ℕ) (start stop : ℕ) : List (List ℤ) :=
  let dir : String := "up"
  _startScrollInternal W H dir start stop

/-! ### Startup command building (`begin()`) -/

/-- The COM-pin configuration chosen by the width/height branch of `begin()`. -/
def beginComPins (W H : ℕ) : ℕ :=
  if W = 128 ∧ H = 32 then 0x02
  else if W = 128 ∧ H = 64 then 0x12
  else if W = 96 ∧ H = 16 then 0x02
  else 0x02

/-- The contrast byte chosen by the width/height branch of `begin()`
(branching on `SSD1315_EXTERNALVCC === vccSelection`). -/
def beginContrast (W H vcc : ℕ) : ℕ :=
  if W = 128 ∧ H = 32 then 0x8F
  else if W = 128 ∧ H = 64 then (if vcc = SSD1315_EXTERNALVCC then 0x9F else 0xCF)
  else if W = 96 ∧ H = 16 then (if vcc = SSD1315_EXTERNALVCC then 0x10 else 0xAF)
  else 0x8F

/-- The charge-pump / offset / start-line / COM-pins / contrast /
precharge command list sent by `begin()`. -/
def beginChargePumpCommands (W H vcc displayOffset startLine : ℕ) : List ℤ :=
  [SSD1315_CHARGE_PUMP, if vcc = SSD1315_EXTERNALVCC then 0x10 else 0x14,
   SSD1315_SET_DISPLAY_OFFSET, Int.land (displayOffset : ℤ) 0x3F,
   Int.land (Int.lor SSD1315_SET_DISPLAY_START_LINE_BASE (Int.land (startLine : ℤ) 0x3F)) 0xFF,
   SSD1315_SET_COM_PINS, Int.land (beginComPins W H : ℤ) 0xFF,
   SSD1315_SET_CONTRAST, Int.land (beginContrast W H vcc : ℤ) 0xFF,
   SSD1315_SET_PRECHARGE, if vcc = SSD1315_EXTERNALVCC then 0x22 else 0xF1]

/-- The command lists emitted by `begin()` before the splash/flush step. -/
def beginCommandLists (W H vcc displayOffset startLine : ℕ) : List (List ℤ) :=
  [SSD1315_INIT_SEQ_1,
   [SSD1315_SET_MULTIPLEX, Int.land ((H : ℤ) - 1) 0xFF],
   SSD1315_INIT_SEQ_2,
   beginChargePumpCommands W H vcc displayOffset startLine,
   SSD1315_INIT_SEQ_3]

/-! ### Reference (naive) pixel semantics -/

/-- Reading a pixel of the bit-packed framebuffer: bit `y & 7` of byte
`x + (y >> 3) * W`. -/
def getPixel (W : ℕ) (buf : Nat → Nat) (x y : ℕ) : Bool :=
  (buf (x + (y / 8) * W)).testBit (y % 8)

/-- Naive reference: apply the per-pixel bit operation (set for WHITE,
clear for BLACK, toggle for INVERSE) to the single pixel `(x, y)`. -/
def refPixelOp (W : ℕ) (color : ℕ) (x y : ℕ) (buf : Nat → Nat) : Nat → Nat :=
  applyMaskAt color (x + (y / 8) * W) (1 <<< (y % 8)) buf

/-- Naive reference for a vertical run: the per-pixel operation applied
individually to pixels `(x, y), (x, y+1), ..., (x, y+h-1)`. -/
def naiveVLineCore (W : ℕ) (color : ℕ) (x y h : ℕ) (buf : Nat → Nat) : Nat → Nat :=
  (List.range h).foldl (fun b i => refPixelOp W color x (y + i) b) buf

/-- Naive reference for a clipped vertical run: clip `(x, y..y+h-1)` to
`[0,W) × [0,H)` and apply the per-pixel operation to each clipped pixel. -/
def naiveVLineClipped (W H : ℕ) (x y h : ℤ) (color : ℕ) (buf : Nat → Nat) : Nat → Nat :=
  if 0 ≤ x ∧ x < (W : ℤ) then
    let ys := max y 0
    let ye := min (y + h) (H : ℤ)
    if ys < ye then naiveVLineCore W color x.toNat ys.toNat (ye - ys).toNat buf else buf
  else buf

/-- Naive reference for a horizontal run: the per-pixel operation applied
individually to pixels `(x, y), (x+1, y), ..., (x+w-1, y)`. -/
def naiveHLineCore (W : ℕ) (color : ℕ) (x y w : ℕ) (buf : Nat → Nat) : Nat → Nat :=
  (List.range w).foldl (fun b i => refPixelOp W color (x + i) y b) buf

/-- Naive reference for a clipped horizontal run: clip `(x..x+w-1, y)` to
`[0,W) × [0,H)` and apply the per-pixel operation to each clipped pixel. -/
def naiveHLineClipped (W H : ℕ) (x y w : ℤ) (color : ℕ) (buf : Nat → Nat) : Nat → Nat :=
  if 0 ≤ y ∧ y < (H : ℤ) then
    let xs := max x 0
    let xe := min (x + w) (W : ℤ)
    if xs < xe then naiveHLineCore W color xs.toNat y.toNat (xe - xs).toNat buf else buf
  else buf

/-- Mask holding bits `a ≤ k < b` of a byte. -/
def rangeMask (a b : ℕ) : ℕ := (2 ^ (b - a) - 1) <<< a

/-! ### Draw-operation sequences (for dirty-window tracking) -/

/-- A call to one of the two internal drawing primitives. -/
inductive DrawOp where
  | hline (x y w : ℤ) (color : ℕ)
  | vline (x y h : ℤ) (color : ℕ)

/-- Run one draw call against the state. -/
def applyOp (W H : ℕ) (st : DState) : DrawOp → DState
  | .hline x y w c => (_drawFastHLineInternal W H x y w c st).1
  | .vline x y h c => (_drawFastVLineInternal W H x y h c st).1

/-- Run a sequence of draw calls. -/
def applyOps (W H : ℕ) (st : DState) (ops : List DrawOp) : DState :=
  ops.foldl (applyOp W H) st

/-- The rectangle (inclusive corners) a draw call touches after clipping. -/
def clippedRect (W H : ℕ) : DrawOp → ℤ × ℤ × ℤ × ℤ
  | .hline x y w _ => (max x 0, y, min (x + w) (W : ℤ) - 1, y)
  | .vline x y h _ => (x, max y 0, x, min (y + h) (H : ℤ) - 1)

/-- A draw call survives clipping (its clipped run is non-empty). -/
def survives (W H : ℕ) : DrawOp → Prop
  | .hline x y w _ => (0 ≤ y ∧ y < (H : ℤ)) ∧ max x 0 < min (x + w) (W : ℤ)
  | .vline x y h _ => (0 ≤ x ∧ x < (W : ℤ)) ∧ max y 0 < min (y + h) (H : ℤ)

/-- Componentwise union of inclusive rectangles (min of mins, max of maxes). -/
def unionRect (a b : ℤ × ℤ × ℤ × ℤ) : ℤ × ℤ × ℤ × ℤ :=
  (min a.1 b.1, min a.2.1 b.2.1, max a.2.2.1 b.2.2.1, max a.2.2.2 b.2.2.2)

/-- The dirty window of a state, as a rectangle. -/
def windowRect (st : DState) : ℤ × ℤ × ℤ × ℤ :=
  (st.window_x1, st.window_y1, st.window_x2, st.window_y2)

/-- Every draw in the sequence modifies the framebuffer of the state it
runs against. -/
def allModify (W H : ℕ) : DState → List DrawOp → Prop
  | _, [] => True
  | st, op :: rest =>
      (applyOp W H st op).buffer ≠ st.buffer ∧ allModify W H (applyOp W H st op) rest

/-- A horizontal run (as passed to `_drawFastHLineInternal`) covers the
pixel `(px, py)` after clipping. -/
def coversPixel (W H : ℕ) (x y w : ℤ) (px py : ℕ) : Prop :=
  y = (py : ℤ) ∧ (py : ℤ) < (H : ℤ) ∧ max x 0 ≤ (px : ℤ) ∧ (px : ℤ) < min (x + w) (W : ℤ)

instance (W H : ℕ) (x y w : ℤ) (px py : ℕ) : Decidable (coversPixel W H x y w px py) := by
  unfold coversPixel; infer_instance

/-! ## Byte-level lemmas -/

theorem testBit_255 (k : ℕ) : (255 : ℕ).testBit k = decide (k < 8) := by
  have h : (255 : ℕ) = 2 ^ 8 - 1 := by norm_num
  rw [h, Nat.testBit_two_pow_sub_one]

theorem or255 (b m1 m2 : ℕ) :
    (((b ||| m1) &&& 255) ||| m2) &&& 255 = (b ||| (m1 ||| m2)) &&& 255 := by
  apply Nat.eq_of_testBit_eq; intro k
  simp only [Nat.testBit_or, Nat.testBit_and, testBit_255]
  by_cases hk : k < 8 <;>
    simp only [hk, decide_True, decide_False, Bool.and_true, Bool.and_false] <;>
    first
      | rfl
      | (cases b.testBit k <;> cases m1.testBit k <;> cases m2.testBit k <;> rfl)

theorem and255 (b m1 m2 : ℕ) :
    (((b &&& (255 ^^^ m1)) &&& 255) &&& (255 ^^^ m2)) &&& 255
      = (b &&& (255 ^^^ (m1 ||| m2))) &&& 255 := by
  apply Nat.eq_of_testBit_eq; intro k
  simp only [Nat.testBit_or, Nat.testBit_and, Nat.testBit_xor, testBit_255]
  by_cases hk : k < 8 <;>
    simp only [hk, decide_True, decide_False, Bool.and_true, Bool.and_false,
      Bool.false_and, Bool.true_and] <;>
    first
      | rfl
      | (cases b.testBit k <;> cases m1.testBit k <;> cases m2.testBit k <;> rfl)

theorem xor255 (b m1 m2 : ℕ) (hd : m1 &&& m2 = 0) :
    (((b ^^^ m1) &&& 255) ^^^ m2) &&& 255 = (b ^^^ (m1 ||| m2)) &&& 255 := by
  apply Nat.eq_of_testBit_eq; intro k
  have hdk : (m1.testBit k && m2.testBit k) = false := by
    rw [← Nat.testBit_and, hd, Nat.zero_testBit]
  simp only [Nat.testBit_or, Nat.testBit_and, Nat.testBit_xor, testBit_255]
  by_cases hk : k < 8 <;>
    simp only [hk, decide_True, decide_False, Bool.and_true, Bool.and_false] <;>
    first
      | rfl
      | (cases hb : b.testBit k <;> cases h1 : m1.testBit k <;> cases h2 : m2.testBit k <;>
          simp_all)

theorem testBit_rangeMask (a b k : ℕ) :
    (rangeMask a b).testBit k = decide (a ≤ k ∧ k < b) := by
  rw [rangeMask, Nat.testBit_shiftLeft, Nat.testBit_two_pow_sub_one]
  by_cases h1 : a ≤ k <;> by_cases h2 : k < b <;>
    simp [h1, h2] <;> omega

theorem testBit_one_shift (a k : ℕ) : ((1 : ℕ) <<< a).testBit k = decide (k = a) := by
  rw [Nat.testBit_shiftLeft]
  by_cases h1 : a ≤ k <;> by_cases h2 : k = a
  · subst h2; simp
  · have h3 : (1 : ℕ).testBit (k - a) = false := by
      apply Nat.testBit_lt_two_pow
      have h4 : 1 ≤ k - a := by omega
      calc (1 : ℕ) < 2 ^ 1 := by norm_num
        _ ≤ 2 ^ (k - a) := Nat.pow_le_pow_right (by norm_num) h4
    simp [h1, h2, h3]
  · omega
  · simp [h1, h2]

theorem rangeMask_single (a : ℕ) : rangeMask a (a + 1) = 1 <<< a := by
  simp [rangeMask]

theorem rangeMask_split (a b : ℕ) (hab : a ≤ b) :
    rangeMask a b ||| (1 <<< b) = rangeMask a (b + 1) := by
  apply Nat.eq_of_testBit_eq; intro k
  simp only [Nat.testBit_or, testBit_rangeMask, testBit_one_shift]
  by_cases h1 : a ≤ k <;> by_cases h2 : k < b <;> by_cases h3 : k = b <;>
    simp [h1, h2, h3] <;> omega

theorem rangeMask_top_disjoint (a b : ℕ) :
    rangeMask a b &&& (1 <<< b) = 0 := by
  apply Nat.eq_of_testBit_eq; intro k
  simp only [Nat.testBit_and, testBit_rangeMask, testBit_one_shift, Nat.zero_testBit]
  by_cases h2 : k < b <;> by_cases h3 : k = b <;>
    simp [h2, h3] <;> omega

theorem rangeMask_0_8 : rangeMask 0 8 = 255 := by norm_num [rangeMask]

/-! ## Lemmas about the masked byte write -/

theorem applyMaskAt_ne (c i m : ℕ) (buf : Nat → Nat) (j : ℕ) (hij : j ≠ i) :
    applyMaskAt c i m buf j = buf j := by
  unfold applyMaskAt setByte
  split_ifs <;> simp [hij]

theorem applyMaskAt_self (c i m : ℕ) (buf : Nat → Nat) :
    applyMaskAt c i m buf i =
      if c = SSD1315_WHITE then (buf i ||| m) &&& 255
      else if c = SSD1315_BLACK then (buf i &&& (255 ^^^ m)) &&& 255
      else if c = SSD1315_INVERSE then (buf i ^^^ m) &&& 255
      else buf i := by
  unfold applyMaskAt setByte
  split_ifs <;> simp

theorem applyMaskAt_other (c i m : ℕ) (buf : Nat → Nat)
    (h0 : c ≠ SSD1315_BLACK) (h1 : c ≠ SSD1315_WHITE) (h2 : c ≠ SSD1315_INVERSE) :
    applyMaskAt c i m buf = buf := by
  unfold applyMaskAt
  split_ifs <;> first | rfl | exact absurd (by assumption) (by assumption)

theorem applyMaskAt_merge (c i m1 m2 : ℕ) (buf : Nat → Nat) (hd : m1 &&& m2 = 0) :
    applyMaskAt c i m2 (applyMaskAt c i m1 buf) = applyMaskAt c i (m1 ||| m2) buf := by
  by_cases hW : c = SSD1315_WHITE
  · subst hW
    funext j
    by_cases hj : j = i
    · subst hj
      simp [applyMaskAt, setByte, SSD1315_WHITE, SSD1315_BLACK, SSD1315_INVERSE, or255]
    · simp [applyMaskAt, setByte, SSD1315_WHITE, SSD1315_BLACK, SSD1315_INVERSE, hj]
  · by_cases hB : c = SSD1315_BLACK
    · subst hB
      funext j
      by_cases hj : j = i
      · subst hj
        simp [applyMaskAt, setByte, SSD1315_WHITE, SSD1315_BLACK, SSD1315_INVERSE, and255]
      · simp [applyMaskAt, setByte, SSD1315_WHITE, SSD1315_BLACK, SSD1315_INVERSE, hj]
    · by_cases hI : c = SSD1315_INVERSE
      · subst hI
        funext j
        by_cases hj : j = i
        · subst hj
          simp [applyMaskAt, setByte, SSD1315_WHITE, SSD1315_BLACK, SSD1315_INVERSE,
            xor255 _ _ _ hd]
        · simp [applyMaskAt, setByte, SSD1315_WHITE, SSD1315_BLACK, SSD1315_INVERSE, hj]
      · rw [applyMaskAt_other _ _ _ _ hB hW hI, applyMaskAt_other _ _ _ _ hB hW hI,
            applyMaskAt_other _ _ _ _ hB hW hI]

/-! ## Horizontal run lemmas -/

theorem hlineLoop_fst (op : ℕ → ℕ) :
    ∀ (w : ℕ) (buf : Nat → Nat) (index : ℕ),
      (hlineLoop op buf index w).1 =
        fun j => if index ≤ j ∧ j < index + w then op (buf j) &&& 255 else buf j := by
  intro w
  induction w with
  | zero =>
    intro buf index
    funext j
    rw [hlineLoop, if_neg (by omega)]
  | succ n ih =>
    intro buf index
    show (hlineLoop op (setByte buf index (op (buf index))) (index + 1) n).1 = _
    rw [ih]
    funext j
    by_cases hj : j = index
    · subst hj
      rw [if_neg (by omega), if_pos (by omega)]
      simp [setByte]
    · have hbj : setByte buf index (op (buf index)) j = buf j := by simp [setByte, hj]
      by_cases hin : index ≤ j ∧ j < index + (n + 1)
      · rw [if_pos (by omega), if_pos hin, hbj]
      · rw [if_neg (by omega), if_neg hin, hbj]

theorem hlineLoop_snd (op : ℕ → ℕ) :
    ∀ (w : ℕ) (buf : Nat → Nat) (index : ℕ),
      (hlineLoop op buf index w).2 = (List.range w).map (index + ·) := by
  intro w
  induction w with
  | zero => intro buf index; rfl
  | succ n ih =>
    intro buf index
    show index :: (hlineLoop op (setByte buf index (op (buf index))) (index + 1) n).2 = _
    rw [ih, List.range_succ_eq_map]
    simp only [List.map_cons, List.map_map, Nat.add_zero]
    have hfg : (fun x => index + 1 + x) = ((fun x => index + x) ∘ Nat.succ) := by
      funext k
      simp only [Function.comp]
      omega
    rw [hfg]

theorem setByte_or (v : ℕ) (buf : Nat → Nat) (i : ℕ) :
    setByte buf i (buf i ||| v) = applyMaskAt SSD1315_WHITE i v buf := by
  simp [applyMaskAt]

theorem setByte_and (v : ℕ) (buf : Nat → Nat) (i : ℕ) :
    setByte buf i (buf i &&& (255 ^^^ v)) = applyMaskAt SSD1315_BLACK i v buf := by
  simp [applyMaskAt, SSD1315_WHITE, SSD1315_BLACK]

theorem setByte_xor (v : ℕ) (buf : Nat → Nat) (i : ℕ) :
    setByte buf i (buf i ^^^ v) = applyMaskAt SSD1315_INVERSE i v buf := by
  simp [applyMaskAt, SSD1315_WHITE, SSD1315_BLACK, SSD1315_INVERSE]

theorem hlineLoop_as_applyMask (c v : ℕ) (op : ℕ → ℕ)
    (hop : ∀ (buf : Nat → Nat) (i : ℕ), setByte buf i (op (buf i)) = applyMaskAt c i v buf) :
    ∀ (w : ℕ) (buf : Nat → Nat) (index : ℕ),
      (hlineLoop op buf index w).1 =
        (List.range w).foldl (fun b k => applyMaskAt c (index + k) v b) buf := by
  intro w
  induction w with
  | zero => intro buf index; rfl
  | succ n ih =>
    intro buf index
    show (hlineLoop op (setByte buf index (op (buf index))) (index + 1) n).1 = _
    rw [ih, hop, List.range_succ_eq_map]
    simp only [List.foldl_cons, List.foldl_map, Nat.add_zero]
    have hfg : (fun (b : Nat → Nat) (k : ℕ) => applyMaskAt c (index + 1 + k) v b)
        = (fun (b : Nat → Nat) (k : ℕ) => applyMaskAt c (index + Nat.succ k) v b) := by
      funext b k
      rw [show index + 1 + k = index + Nat.succ k by omega]
    rw [hfg]

theorem foldl_applyMask_other (c : ℕ) (h0 : c ≠ SSD1315_BLACK) (h1 : c ≠ SSD1315_WHITE)
    (h2 : c ≠ SSD1315_INVERSE) (l : List ℕ) (f g : ℕ → ℕ) (buf : Nat → Nat) :
    l.foldl (fun b k => applyMaskAt c (f k) (g k) b) buf = buf := by
  induction l generalizing buf with
  | nil => rfl
  | cons a l ih => simp [applyMaskAt_other _ _ _ _ h0 h1 h2, ih]

theorem naiveHLineCore_as_fold (W c x y w : ℕ) (buf : Nat → Nat) :
    naiveHLineCore W c x y w buf =
      (List.range w).foldl
        (fun b k => applyMaskAt c ((x + (y / 8) * W) + k) (1 <<< (y % 8)) b) buf := by
  unfold naiveHLineCore refPixelOp
  have hfg : (fun (b : Nat → Nat) (k : ℕ) => applyMaskAt c (x + k + (y / 8) * W) (1 <<< (y % 8)) b)
      = (fun (b : Nat → Nat) (k : ℕ) =>
          applyMaskAt c ((x + (y / 8) * W) + k) (1 <<< (y % 8)) b) := by
    funext b k
    rw [show x + k + (y / 8) * W = (x + (y / 8) * W) + k by omega]
  rw [hfg]

theorem hlineCore_eq_naive (W x y w c : ℕ) (buf : Nat → Nat) :
    (hlineCore W x y w c buf).1 = naiveHLineCore W c x y w buf := by
  rw [naiveHLineCore_as_fold]
  match c with
  | 0 =>
    rw [hlineCore]
    norm_num [SSD1315_WHITE, SSD1315_BLACK]
    exact hlineLoop_as_applyMask SSD1315_BLACK _ _ (setByte_and _) w buf _
  | 1 =>
    rw [hlineCore]
    norm_num [SSD1315_WHITE]
    exact hlineLoop_as_applyMask SSD1315_WHITE _ _ (setByte_or _) w buf _
  | 2 =>
    rw [hlineCore]
    norm_num [SSD1315_WHITE, SSD1315_BLACK, SSD1315_INVERSE]
    exact hlineLoop_as_applyMask SSD1315_INVERSE _ _ (setByte_xor _) w buf _
  | (n + 3) =>
    rw [hlineCore]
    rw [if_neg (by simp only [SSD1315_WHITE]; omega), if_neg (by simp only [SSD1315_BLACK]; omega),
        if_neg (by simp only [SSD1315_INVERSE]; omega)]
    rw [foldl_applyMask_other (n + 3) (by simp only [SSD1315_BLACK]; omega)
      (by simp only [SSD1315_WHITE]; omega) (by simp only [SSD1315_INVERSE]; omega)]

theorem naiveHLineCore_congr (W c y x1 x2 w1 w2 : ℕ) (buf : Nat → Nat)
    (hx : x1 = x2) (hw : w1 = w2) :
    naiveHLineCore W c x1 y w1 buf = naiveHLineCore W c x2 y w2 buf := by
  rw [hx, hw]

theorem hlineInternal_buffer (W H : ℕ) (x y w : ℤ) (c : ℕ) (st : DState) :
    ((_drawFastHLineInternal W H x y w c st).1).buffer
      = naiveHLineClipped W H x y w c st.buffer := by
  simp only [_drawFastHLineInternal, naiveHLineClipped]
  split_ifs with h1 h2 h3 h4 h5 h6 h7 h8 h9 h10 h11 h12
  all_goals try rfl
  all_goals try omega
  all_goals dsimp only
  all_goals rw [hlineCore_eq_naive]
  all_goals apply naiveHLineCore_congr <;> omega


theorem foldl_fun_congr {α β : Type} (l : List β) (f g : α → β → α) (a : α)
    (h : ∀ x y, f x y = g x y) : l.foldl f a = l.foldl g a := by
  have hfg : f = g := by funext x y; exact h x y
  rw [hfg]

theorem map_fun_congr {α β : Type} (l : List α) (f g : α → β) (h : ∀ x, f x = g x) :
    l.map f = l.map g := by
  have hfg : f = g := by funext x; exact h x
  rw [hfg]

theorem setByte_arg_congr (b : Nat → Nat) (f : ℕ → ℕ) (i i' : ℕ) (h : i = i') :
    setByte b i (f (b i)) = setByte b i' (f (b i')) := by rw [h]

theorem naiveVLineCore_zero (W c x y : ℕ) (buf : Nat → Nat) :
    naiveVLineCore W c x y 0 buf = buf := rfl

theorem naiveVLineCore_one (W c x r : ℕ) (buf : Nat → Nat) :
    naiveVLineCore W c x r 1 buf = refPixelOp W c x r buf := by
  simp [naiveVLineCore, List.range_succ]

theorem naiveVLineCore_split (W c x y h1 h2 : ℕ) (buf : Nat → Nat) :
    naiveVLineCore W c x y (h1 + h2) buf
      = naiveVLineCore W c x (y + h1) h2 (naiveVLineCore W c x y h1 buf) := by
  unfold naiveVLineCore
  rw [List.range_add, List.foldl_append, List.foldl_map]
  apply foldl_fun_congr
  intro b i
  rw [show y + (h1 + i) = y + h1 + i by omega]

theorem naiveVLineCore_single (W c x : ℕ) :
    ∀ (n a p : ℕ) (buf : Nat → Nat), 1 ≤ n → a + n ≤ 8 →
      naiveVLineCore W c x (8 * p + a) n buf
        = applyMaskAt c (x + p * W) (rangeMask a (a + n)) buf := by
  intro n
  induction n with
  | zero => intro a p buf h1 h2; omega
  | succ m ih =>
    intro a p buf h1 h2
    rcases Nat.eq_zero_or_pos m with hm | hm
    · subst hm
      rw [naiveVLineCore_one, refPixelOp,
        show (8 * p + a) / 8 = p by omega, show (8 * p + a) % 8 = a by omega,
        rangeMask_single]
    · rw [naiveVLineCore_split, ih a p buf hm (by omega),
        naiveVLineCore_one, refPixelOp,
        show (8 * p + a + m) / 8 = p by omega, show (8 * p + a + m) % 8 = a + m by omega,
        applyMaskAt_merge _ _ _ _ _ (rangeMask_top_disjoint a (a + m)),
        rangeMask_split a (a + m) (by omega),
        show a + m + 1 = a + (m + 1) by omega]

theorem vlineByteLoop_spec (store : ℕ → ℕ) (W : ℕ) :
    ∀ (h : ℕ) (buf : Nat → Nat) (index : ℕ), 8 ≤ h →
      vlineByteLoop store W buf index h =
        ((List.range (h / 8)).foldl
            (fun b k => setByte b (index + k * W) (store (b (index + k * W)))) buf,
         index + (h / 8) * W, h % 8,
         (List.range (h / 8)).map (fun k => index + k * W)) := by
  intro h
  induction h using Nat.strong_induction_on with
  | _ h IH =>
    intro buf index h8
    rw [vlineByteLoop]
    by_cases h16 : 8 ≤ h - 8
    · rw [dif_pos h16]
      rw [IH (h - 8) (by omega) _ _ h16]
      rw [show h / 8 = (h - 8) / 8 + 1 by omega, List.range_succ_eq_map]
      simp only [Prod.mk.injEq, List.foldl_cons, List.foldl_map, List.map_cons, List.map_map,
        Nat.zero_mul, Nat.add_zero]
      refine ⟨?_, by ring, by omega, ?_⟩
      · apply foldl_fun_congr
        intro b k
        apply setByte_arg_congr
        simp only [Nat.succ_eq_add_one]
        ring
      · congr 1
        apply map_fun_congr
        intro k
        simp only [Function.comp, Nat.succ_eq_add_one]
        ring
    · rw [dif_neg h16]
      rw [show h / 8 = 1 by omega]
      simp only [Prod.mk.injEq, List.range_succ, List.range_zero, List.nil_append,
        List.foldl_cons, List.foldl_nil, List.map_cons, List.map_nil,
        Nat.zero_mul, Nat.add_zero, Nat.one_mul]
      exact ⟨trivial, trivial, by omega, trivial⟩


theorem or_255_and (b : ℕ) : (b ||| 255) &&& 255 = 255 := by
  apply Nat.eq_of_testBit_eq; intro k
  simp only [Nat.testBit_or, Nat.testBit_and, testBit_255]
  cases b.testBit k <;> by_cases hk : k < 8 <;> simp [hk]

theorem setByte_white_byte (buf : Nat → Nat) (i : ℕ) :
    setByte buf i 0xFF = applyMaskAt SSD1315_WHITE i 255 buf := by
  funext j
  simp [setByte, applyMaskAt, or_255_and]

theorem setByte_black_byte (buf : Nat → Nat) (i : ℕ) :
    setByte buf i 0x00 = applyMaskAt SSD1315_BLACK i 255 buf := by
  funext j
  simp [setByte, applyMaskAt, SSD1315_WHITE, SSD1315_BLACK, Nat.xor_self]

theorem setByte_invert_byte (buf : Nat → Nat) (i : ℕ) :
    setByte buf i (buf i ^^^ 0xFF) = applyMaskAt SSD1315_INVERSE i 255 buf :=
  setByte_xor 255 buf i

theorem and_seven_eq (m : ℕ) (hm : m < 8) : m &&& 7 = m :=
  (by decide : ∀ m < 8, m &&& 7 = m) m hm

theorem post_mask_eq (m : ℕ) (h1 : 1 ≤ m) (hm : m < 8) :
    SSD1315_VLINE_POST_MASK.getD m 0 = rangeMask 0 m :=
  (by decide : ∀ m < 8, 1 ≤ m → SSD1315_VLINE_POST_MASK.getD m 0 = rangeMask 0 m) m hm h1

theorem pre_mask_full (m : ℕ) (h1 : 1 ≤ m) (hm : m < 8) :
    SSD1315_VLINE_PRE_MASK.getD (8 - m) 0 = rangeMask m 8 :=
  (by decide : ∀ m < 8, 1 ≤ m → SSD1315_VLINE_PRE_MASK.getD (8 - m) 0 = rangeMask m 8) m hm h1

theorem pre_mask_trim (m hh : ℕ) (h1 : 1 ≤ m) (hm : m < 8) (hh1 : 1 ≤ hh) (hh2 : hh < 8 - m) :
    SSD1315_VLINE_PRE_MASK.getD (8 - m) 0 &&& (0xFF >>> (8 - m - hh)) = rangeMask m (m + hh) :=
  (by decide : ∀ m < 8, ∀ hh < 8, 1 ≤ m → 1 ≤ hh → hh < 8 - m →
      SSD1315_VLINE_PRE_MASK.getD (8 - m) 0 &&& (0xFF >>> (8 - m - hh)) = rangeMask m (m + hh))
    m hm hh (by omega) h1 hh1 hh2

theorem fold_store_applyMask (W c : ℕ) (store : ℕ → ℕ)
    (hst : ∀ (buf : Nat → Nat) (i : ℕ), setByte buf i (store (buf i)) = applyMaskAt c i 255 buf)
    (l : List ℕ) :
    ∀ (buf : Nat → Nat) (index : ℕ),
      l.foldl (fun b k => setByte b (index + k * W) (store (b (index + k * W)))) buf
        = l.foldl (fun b k => applyMaskAt c (index + k * W) 255 b) buf := by
  induction l with
  | nil => intro buf index; rfl
  | cons a l ih =>
    intro buf index
    simp only [List.foldl_cons]
    rw [hst, ih]

theorem fold_applyMask255_naive (W c x p : ℕ) :
    ∀ (n : ℕ) (buf : Nat → Nat),
      (List.range n).foldl (fun b k => applyMaskAt c ((x + p * W) + k * W) 255 b) buf
        = naiveVLineCore W c x (8 * p) (8 * n) buf := by
  intro n
  induction n with
  | zero => intro buf; rfl
  | succ m ih =>
    intro buf
    rw [List.range_succ, List.foldl_append, ih, List.foldl_cons, List.foldl_nil]
    rw [show 8 * (m + 1) = 8 * m + 8 by ring, naiveVLineCore_split]
    rw [show 8 * p + 8 * m = 8 * (p + m) + 0 by ring]
    rw [naiveVLineCore_single W c x 8 0 (p + m) _ (by omega) (by omega)]
    rw [show (0 : ℕ) + 8 = 8 from rfl, rangeMask_0_8]
    rw [show x + p * W + m * W = x + (p + m) * W by ring]


theorem invert_fold_naive (W x p n : ℕ) (buf : Nat → Nat) :
    (List.range n).foldl
        (fun b k => setByte b (x + p * W + k * W) (b (x + p * W + k * W) ^^^ 255)) buf
      = naiveVLineCore W SSD1315_INVERSE x (8 * p) (8 * n) buf := by
  rw [foldl_fun_congr (List.range n)
      (fun b k => setByte b (x + p * W + k * W) (b (x + p * W + k * W) ^^^ 255))
      (fun b k => applyMaskAt SSD1315_INVERSE (x + p * W + k * W) 255 b) buf
      (fun b k => setByte_invert_byte b (x + p * W + k * W)),
    fold_applyMask255_naive]

theorem white_fold_naive (W x p n : ℕ) (buf : Nat → Nat) :
    (List.range n).foldl (fun b k => setByte b (x + p * W + k * W) 255) buf
      = naiveVLineCore W SSD1315_WHITE x (8 * p) (8 * n) buf := by
  rw [foldl_fun_congr (List.range n)
      (fun b k => setByte b (x + p * W + k * W) 255)
      (fun b k => applyMaskAt SSD1315_WHITE (x + p * W + k * W) 255 b) buf
      (fun b k => setByte_white_byte b (x + p * W + k * W)),
    fold_applyMask255_naive]

theorem black_fold_naive (W x p n : ℕ) (buf : Nat → Nat) :
    (List.range n).foldl (fun b k => setByte b (x + p * W + k * W) 0) buf
      = naiveVLineCore W SSD1315_BLACK x (8 * p) (8 * n) buf := by
  rw [foldl_fun_congr (List.range n)
      (fun b k => setByte b (x + p * W + k * W) 0)
      (fun b k => applyMaskAt SSD1315_BLACK (x + p * W + k * W) 255 b) buf
      (fun b k => setByte_black_byte b (x + p * W + k * W)),
    fold_applyMask255_naive]

theorem vlineTail_eq (W c x p h : ℕ) (buf : Nat → Nat) (hc : c < 3) :
    (vlineTail W c buf (x + p * W) h).1 = naiveVLineCore W c x (8 * p) h buf := by
  simp only [vlineTail]
  by_cases h8 : 8 ≤ h
  · rw [if_pos h8]
    have hmid :
        (if c = SSD1315_INVERSE then vlineByteLoop (fun b => b ^^^ 0xFF) W buf (x + p * W) h
         else vlineByteLoop (fun _ => if c ≠ SSD1315_BLACK then 0xFF else 0x00) W buf
           (x + p * W) h)
        = (naiveVLineCore W c x (8 * p) (8 * (h / 8)) buf,
           (x + p * W) + (h / 8) * W, h % 8,
           (List.range (h / 8)).map (fun k => (x + p * W) + k * W)) := by
      by_cases hcI : c = SSD1315_INVERSE
      · subst hcI
        rw [if_pos rfl, vlineByteLoop_spec _ _ _ _ _ h8]
        simp only [Prod.mk.injEq, and_true, true_and, and_self]
        exact invert_fold_naive W x p (h / 8) buf
      · rw [if_neg hcI]
        have hc01 : c = 0 ∨ c = 1 := by
          simp only [SSD1315_INVERSE] at hcI
          omega
        rcases hc01 with hc0 | hc1
        · subst hc0
          rw [show (fun (_ : ℕ) => if (0 : ℕ) ≠ SSD1315_BLACK then 0xFF else 0x00)
              = (fun (_ : ℕ) => (0 : ℕ)) by norm_num [SSD1315_BLACK]]
          rw [vlineByteLoop_spec _ _ _ _ _ h8]
          simp only [Prod.mk.injEq, and_true, true_and, and_self]
          have hb := black_fold_naive W x p (h / 8) buf
          simp only [SSD1315_BLACK] at hb
          exact hb
        · subst hc1
          rw [show (fun (_ : ℕ) => if (1 : ℕ) ≠ SSD1315_BLACK then 0xFF else 0x00)
              = (fun (_ : ℕ) => (255 : ℕ)) by norm_num [SSD1315_BLACK]]
          rw [vlineByteLoop_spec _ _ _ _ _ h8]
          simp only [Prod.mk.injEq, and_true, true_and, and_self]
          have hb := white_fold_naive W x p (h / 8) buf
          simp only [SSD1315_WHITE] at hb
          exact hb
    rw [hmid]
    dsimp only
    by_cases hh : h % 8 = 0
    · rw [if_neg (by omega)]
      rw [show 8 * (h / 8) = h by omega]
    · rw [if_pos (by omega)]
      rw [and_seven_eq _ (by omega), post_mask_eq _ (by omega) (by omega)]
      rw [show (x + p * W) + (h / 8) * W = x + (p + h / 8) * W by ring]
      conv_rhs => rw [show h = 8 * (h / 8) + h % 8 by omega]
      rw [naiveVLineCore_split]
      rw [show 8 * p + 8 * (h / 8) = 8 * (p + h / 8) + 0 by ring]
      rw [naiveVLineCore_single W c x (h % 8) 0 (p + h / 8) _ (by omega) (by omega)]
      rw [show (0 : ℕ) + h % 8 = h % 8 by omega]
  · rw [if_neg h8]
    dsimp only
    by_cases hh : h = 0
    · subst hh
      rw [if_neg (by omega)]
      rfl
    · rw [if_pos hh]
      rw [and_seven_eq _ (by omega), post_mask_eq _ (by omega) (by omega)]
      conv_rhs => rw [show 8 * p = 8 * p + 0 by omega]
      rw [naiveVLineCore_single W c x h 0 p _ (by omega) (by omega)]
      rw [show (0 : ℕ) + h = h by omega]

theorem vlineCore_eq_naive (W x y h c : ℕ) (buf : Nat → Nat) (hc : c < 3) (hh : 1 ≤ h) :
    (vlineCore W x y h c buf).1 = naiveVLineCore W c x y h buf := by
  simp only [vlineCore]
  by_cases hm : y % 8 = 0
  · rw [if_neg (show ¬(y % 8 ≠ 0) from by omega)]
    dsimp only
    rw [if_pos (show (0 : ℕ) ≤ h from Nat.zero_le h)]
    dsimp only
    rw [vlineTail_eq _ _ _ _ _ _ hc]
    rw [show h - 0 = h by omega, show 8 * (y / 8) = y by omega]
  · rw [if_pos (show y % 8 ≠ 0 from hm)]
    dsimp only
    by_cases hlt : h < 8 - y % 8
    · rw [if_pos hlt, if_neg (show ¬(8 - y % 8 ≤ h) from by omega)]
      dsimp only
      rw [pre_mask_trim (y % 8) h (by omega) (by omega) hh hlt]
      conv_rhs => rw [show y = 8 * (y / 8) + y % 8 by omega]
      rw [naiveVLineCore_single W c x h (y % 8) (y / 8) _ hh (by omega)]
    · rw [if_neg hlt, if_pos (show 8 - y % 8 ≤ h from by omega)]
      dsimp only
      rw [pre_mask_full (y % 8) (by omega) (by omega)]
      rw [show x + (y / 8) * W + W = x + (y / 8 + 1) * W by ring]
      rw [vlineTail_eq _ _ _ _ _ _ hc]
      conv_rhs => rw [show y = 8 * (y / 8) + y % 8 by omega]
      conv_rhs => rw [show h = (8 - y % 8) + (h - (8 - y % 8)) by omega]
      rw [naiveVLineCore_split]
      rw [naiveVLineCore_single W c x (8 - y % 8) (y % 8) (y / 8) _ (by omega) (by omega)]
      rw [show y % 8 + (8 - y % 8) = 8 by omega]
      rw [show 8 * (y / 8) + y % 8 + (8 - y % 8) = 8 * (y / 8 + 1) by omega]

theorem naiveVLineCore_congr (W c x y1 y2 h1 h2 : ℕ) (buf : Nat → Nat)
    (hy : y1 = y2) (hh : h1 = h2) :
    naiveVLineCore W c x y1 h1 buf = naiveVLineCore W c x y2 h2 buf := by
  rw [hy, hh]

theorem vlineInternal_buffer (W H : ℕ) (x y h : ℤ) (c : ℕ) (st : DState) (hc : c < 3) :
    ((_drawFastVLineInternal W H x y h c st).1).buffer
      = naiveVLineClipped W H x y h c st.buffer := by
  simp only [_drawFastVLineInternal, naiveVLineClipped]
  split_ifs with h1 h2 h3 h4 h5 h6 h7 h8 h9 h10 h11 h12
  all_goals try rfl
  all_goals try omega
  all_goals dsimp only
  all_goals rw [vlineCore_eq_naive _ _ _ _ _ _ hc (by omega)]
  all_goals apply naiveVLineCore_congr <;> omega


/-- C1: under rotations 0-3, `drawFastHLine` / `drawFastVLine` transform their
coordinates exactly per the rotation table (rotation 1: swap then
`x' = WIDTH-1-x'`, with `x' -= length-1` for a vertical run; rotation 2:
`x' = WIDTH-1-x'`, `y' = HEIGHT-1-y'`, minus `length-1` on the run axis;
rotation 3: swap then `y' = HEIGHT-1-y'`, with `y' -= length-1` for a
horizontal run) and dispatch to the other internal primitive exactly at
rotations 1 and 3, and to the same-axis primitive unchanged at 0 and 2. -/
theorem claim_C1_rotation_mapping (W H : ℕ) (x y L : ℤ) (c : ℕ) (st : DState) :
    (drawFastHLine W H 0 x y L c st = _drawFastHLineInternal W H x y L c st)
  ∧ (drawFastHLine W H 1 x y L c st
      = _drawFastVLineInternal W H ((W : ℤ) - 1 - y) x L c st)
  ∧ (drawFastHLine W H 2 x y L c st
      = _drawFastHLineInternal W H ((W : ℤ) - 1 - x - (L - 1)) ((H : ℤ) - 1 - y) L c st)
  ∧ (drawFastHLine W H 3 x y L c st
      = _drawFastVLineInternal W H y ((H : ℤ) - 1 - x - (L - 1)) L c st)
  ∧ (drawFastVLine W H 0 x y L c st = _drawFastVLineInternal W H x y L c st)
  ∧ (drawFastVLine W H 1 x y L c st
      = _drawFastHLineInternal W H ((W : ℤ) - 1 - y - (L - 1)) x L c st)
  ∧ (drawFastVLine W H 2 x y L c st
      = _drawFastVLineInternal W H ((W : ℤ) - 1 - x) ((H : ℤ) - 1 - y - (L - 1)) L c st)
  ∧ (drawFastVLine W H 3 x y L c st
      = _drawFastHLineInternal W H y ((H : ℤ) - 1 - x) L c st) := by
  refine ⟨rfl, ?_, ?_, ?_, rfl, ?_, ?_, ?_⟩
  · show _drawFastVLineInternal W H ((W : ℤ) - y - 1) x L c st = _
    rw [show (W : ℤ) - y - 1 = (W : ℤ) - 1 - y by ring]
  · show _drawFastHLineInternal W H ((W : ℤ) - x - 1 - (L - 1)) ((H : ℤ) - y - 1) L c st = _
    rw [show (W : ℤ) - x - 1 - (L - 1) = (W : ℤ) - 1 - x - (L - 1) by ring,
      show (H : ℤ) - y - 1 = (H : ℤ) - 1 - y by ring]
  · show _drawFastVLineInternal W H y ((H : ℤ) - x - 1 - (L - 1)) L c st = _
    rw [show (H : ℤ) - x - 1 - (L - 1) = (H : ℤ) - 1 - x - (L - 1) by ring]
  · show _drawFastHLineInternal W H ((W : ℤ) - y - 1 - (L - 1)) x L c st = _
    rw [show (W : ℤ) - y - 1 - (L - 1) = (W : ℤ) - 1 - y - (L - 1) by ring]
  · show _drawFastVLineInternal W H ((W : ℤ) - x - 1) ((H : ℤ) - y - 1 - (L - 1)) L c st = _
    rw [show (W : ℤ) - x - 1 = (W : ℤ) - 1 - x by ring,
      show (H : ℤ) - y - 1 - (L - 1) = (H : ℤ) - 1 - y - (L - 1) by ring]
  · show _drawFastHLineInternal W H y ((H : ℤ) - x - 1) L c st = _
    rw [show (H : ℤ) - x - 1 = (H : ℤ) - 1 - x by ring]

/-- C3 (counterexample): `startscrollleft(0, 15)` on a 128x64 display emits
`0x01`, not `0x00`, as the horizontal-increment parameter byte (the second
byte of the scroll command list), refuting the claim as stated. -/
theorem claim_C3_counterexample :
    ¬ (((startscrollleft 128 64 0 15).getD 1 []).getD 1 99 = 0x00) := by
  decide

/-- C3 (amended): left/right scrolls emit horizontal increment `0x01` and
vertical increment `0x00`; `startscrollup` emits horizontal increment `0x00`
(and vertical increment 1); the diagonal scrolls emit horizontal increment 1
and vertical increment 1.  (Positions: byte 1 is the horizontal increment,
byte 5 the vertical increment, byte 0 the scroll opcode.) -/
theorem claim_C3_amended (W H start stop : ℕ) (hH : 1 ≤ Int.land (H : ℤ) 0xFF) :
    (((startscrollleft W H start stop).getD 1 []).getD 0 99
        = SSD1315_VERTICAL_AND_LEFT_HORIZONTAL_SCROLL
      ∧ ((startscrollleft W H start stop).getD 1 []).getD 1 99 = 0x01
      ∧ ((startscrollleft W H start stop).getD 1 []).getD 5 99 = 0x00)
  ∧ (((startscrollright W H start stop).getD 1 []).getD 0 99
        = SSD1315_VERTICAL_AND_RIGHT_HORIZONTAL_SCROLL
      ∧ ((startscrollright W H start stop).getD 1 []).getD 1 99 = 0x01
      ∧ ((startscrollright W H start stop).getD 1 []).getD 5 99 = 0x00)
  ∧ (((startscrollup W H start stop).getD 1 []).getD 1 99 = 0x00
      ∧ ((startscrollup W H start stop).getD 1 []).getD 5 99 = 0x01)
  ∧ (((startscrolldiagleft W H start stop).getD 1 []).getD 1 99 = 0x01
      ∧ ((startscrolldiagleft W H start stop).getD 1 []).getD 5 99 = 0x01)
  ∧ (((startscrolldiagright W H start stop).getD 1 []).getD 1 99 = 0x01
      ∧ ((startscrolldiagright W H start stop).getD 1 []).getD 5 99 = 0x01) := by
  have hmin : min 1 (Int.land (H : ℤ) 0xFF) = 1 := by omega
  simp only [startscrollleft, startscrollright, startscrollup, startscrolldiagleft,
    startscrolldiagright, _startScrollInternal, hmin]
  norm_num
  decide

/-- C3 (witness for the amended claim): instantiated at a 128x64 display
with start page 0 and stop page 15. -/
theorem claim_C3_amended_witness :
    (1 ≤ Int.land ((64 : ℕ) : ℤ) 0xFF)
  ∧ ((startscrollleft 128 64 0 15).getD 1 []).getD 1 99 = 0x01 := by
  refine ⟨by decide, ?_⟩
  exact (claim_C3_amended 128 64 0 15 (by decide)).1.2.1


/-- C8: `begin()` with WIDTH=128, HEIGHT=64 and a vcc selection other than
`SSD1315_EXTERNALVCC` emits charge-pump parameter byte `0x14` and contrast
byte `0xCF`; with WIDTH=128, HEIGHT=32 it emits contrast byte `0x8F` for
every vcc selection.  (In the charge-pump command list, byte 1 is the
charge-pump parameter and byte 8 the contrast value.) -/
theorem claim_C8_begin_contrast (vcc off sl : ℕ) (hv : vcc ≠ SSD1315_EXTERNALVCC) :
    ((beginCommandLists 128 64 vcc off sl).getD 3 []).getD 1 99 = 0x14
  ∧ ((beginCommandLists 128 64 vcc off sl).getD 3 []).getD 8 99 = 0xCF
  ∧ ∀ (v o s : ℕ), ((beginCommandLists 128 32 v o s).getD 3 []).getD 8 99 = 0x8F := by
  refine ⟨?_, ?_, ?_⟩
  · simp [beginCommandLists, beginChargePumpCommands, hv]
  · simp [beginCommandLists, beginChargePumpCommands, beginContrast, hv]
    decide
  · intro v o s
    simp [beginCommandLists, beginChargePumpCommands, beginContrast]
    decide

/-- C8 (witness): instantiated at the default `SSD1315_SWITCHCAPVCC`
selection with zero display offset and start line. -/
theorem claim_C8_begin_contrast_witness :
    ((2 : ℕ) ≠ SSD1315_EXTERNALVCC)
  ∧ ((beginCommandLists 128 64 2 0 0).getD 3 []).getD 1 99 = 0x14 := by
  refine ⟨by decide, ?_⟩
  exact (claim_C8_begin_contrast 2 0 0 (by decide)).1


/-- C2 (counterexample): after setting only pixel (0,0) on a 128x64 display
and flushing, the page-address command has end byte `page+1` = 1, which
differs from its start byte 0; the claimed "start and end both equal to
that page" is false at this input. -/
theorem claim_C2_counterexample :
    ¬ ((((display 128 64 ((_drawFastHLineInternal 128 64 0 0 1 SSD1315_WHITE
          (initialState 128 64)).1)).2.1.getD 0 []).getD 2 99)
        = (((display 128 64 ((_drawFastHLineInternal 128 64 0 0 1 SSD1315_WHITE
          (initialState 128 64)).1)).2.1.getD 0 []).getD 1 99)) := by
  decide

/-- C2 (amended): for every non-empty well-formed dirty window, `display()`
iterates exactly over the pages `floor(y1/8) .. floor(y2/8)`; for each page
it emits one command list whose page-address range has start = page and end
= page + 1 (not page), and whose column-address range is `x1..x2`, followed
by one data block that is exactly the framebuffer bytes of that page
restricted to columns `x1..x2`; after setting only pixel (0,0), a flush
emits exactly one command list `[0x22,0,1,0x21,0,0]` and one data block of
length 1. -/
theorem claim_C2_amended (W H : ℕ) (st : DState)
    (hx1 : 0 ≤ st.window_x1) (hx12 : st.window_x1 ≤ st.window_x2)
    (hx2 : st.window_x2 < (W : ℤ)) (hy1 : 0 ≤ st.window_y1)
    (hy12 : st.window_y1 ≤ st.window_y2) (hy2 : st.window_y2 < (H : ℤ)) :
    ((display W H st).2.1 =
      ((List.range (Int.tdiv st.window_y2 8 - Int.tdiv st.window_y1 8 + 1).toNat).map
          (fun k => Int.tdiv st.window_y1 8 + k)).map
        (fun page => [SSD1315_PAGE_ADDR, page, page + 1, SSD1315_COLUMN_ADDR,
          st.window_x1, st.window_x2])
  ∧ (display W H st).2.2 =
      ((List.range (Int.tdiv st.window_y2 8 - Int.tdiv st.window_y1 8 + 1).toNat).map
          (fun k => Int.tdiv st.window_y1 8 + k)).map
        (fun page =>
          (List.range (st.window_x2 - st.window_x1 + 1).toNat).map
            (fun k => st.buffer ((st.window_x1 + page * (W : ℤ)).toNat + k))))
  ∧ ((display 128 64 ((_drawFastHLineInternal 128 64 0 0 1 SSD1315_WHITE
        (initialState 128 64)).1)).2.1
      = [[SSD1315_PAGE_ADDR, 0, 1, SSD1315_COLUMN_ADDR, 0, 0]]
  ∧ (display 128 64 ((_drawFastHLineInternal 128 64 0 0 1 SSD1315_WHITE
        (initialState 128 64)).1)).2.2 = [[1]]) := by
  refine ⟨⟨?_, ?_⟩, by decide, by decide⟩
  · simp only [display]
    rw [if_pos (by omega : (0 : ℤ) < st.window_x2 - st.window_x1 + 1)]
    dsimp only
    rw [show st.window_x1 + (st.window_x2 - st.window_x1 + 1) - 1 = st.window_x2 by ring]
    rw [show Int.tdiv st.window_y2 8 + 1 - Int.tdiv st.window_y1 8
        = Int.tdiv st.window_y2 8 - Int.tdiv st.window_y1 8 + 1 by ring]
  · simp only [display]
    rw [if_pos (by omega : (0 : ℤ) < st.window_x2 - st.window_x1 + 1)]
    dsimp only
    rw [show Int.tdiv st.window_y2 8 + 1 - Int.tdiv st.window_y1 8
        = Int.tdiv st.window_y2 8 - Int.tdiv st.window_y1 8 + 1 by ring]

/-- C2 (witness for the amended claim): instantiated at a 128x64 display
whose dirty window is the single pixel (0,0) over a zero framebuffer. -/
theorem claim_C2_amended_witness :
    ((0 : ℤ) ≤ 0 ∧ (0 : ℤ) ≤ 0 ∧ (0 : ℤ) < (128 : ℕ) ∧ (0 : ℤ) < (64 : ℕ))
  ∧ (display 128 64 (DState.mk (fun _ => 0) 0 0 0 0)).2.1 =
      ((List.range (Int.tdiv (0 : ℤ) 8 - Int.tdiv (0 : ℤ) 8 + 1).toNat).map
          (fun k => Int.tdiv (0 : ℤ) 8 + k)).map
        (fun page => [SSD1315_PAGE_ADDR, page, page + 1, SSD1315_COLUMN_ADDR, 0, 0]) := by
  refine ⟨by norm_num, ?_⟩
  exact (claim_C2_amended 128 64 (DState.mk (fun _ => 0) 0 0 0 0)
    (by norm_num) (by norm_num) (by norm_num) (by norm_num) (by norm_num) (by norm_num)).1.1


/-- C4: for every in-range x, every y, every length h and every color in
BLACK/WHITE/INVERSE, the optimized vertical-run routine (leading partial
byte via `SSD1315_VLINE_PRE_MASK`, whole-byte middle loop, trailing
partial byte via `SSD1315_VLINE_POST_MASK`) leaves the framebuffer exactly
as the naive reference that applies the per-pixel bit operation to each
clipped pixel `(x, y..y+h-1)` individually. -/
theorem claim_C4_vline_refinement (W H : ℕ) (x y h : ℤ) (c : ℕ) (st : DState)
    (hx : 0 ≤ x ∧ x < (W : ℤ))
    (hc : c = SSD1315_BLACK ∨ c = SSD1315_WHITE ∨ c = SSD1315_INVERSE) :
    ((_drawFastVLineInternal W H x y h c st).1).buffer
      = naiveVLineClipped W H x y h c st.buffer := by
  refine vlineInternal_buffer W H x y h c st ?_
  rcases hc with h1 | h1 | h1 <;> simp [h1, SSD1315_BLACK, SSD1315_WHITE, SSD1315_INVERSE]

/-- C4 (witness): instantiated on a 2-column, 16-row buffer, drawing a
white vertical run of length 10 from (0, 3). -/
theorem claim_C4_vline_refinement_witness :
    ((0 : ℤ) ≤ 0 ∧ (0 : ℤ) < ((2 : ℕ) : ℤ))
  ∧ (SSD1315_WHITE = SSD1315_BLACK ∨ SSD1315_WHITE = SSD1315_WHITE
      ∨ SSD1315_WHITE = SSD1315_INVERSE)
  ∧ ((_drawFastVLineInternal 2 16 0 3 10 SSD1315_WHITE (initialState 2 16)).1).buffer
      = naiveVLineClipped 2 16 0 3 10 SSD1315_WHITE (initialState 2 16).buffer := by
  refine ⟨⟨le_refl _, by norm_num⟩, Or.inr (Or.inl rfl), ?_⟩
  exact claim_C4_vline_refinement 2 16 0 3 10 SSD1315_WHITE (initialState 2 16)
    ⟨le_refl _, by norm_num⟩ (Or.inr (Or.inl rfl))

/-- C5: a horizontal run is clipped exactly to `[0,W) x [0,H)`: the buffer
after `_drawFastHLineInternal` always equals the naive per-pixel reference
applied to the clipped pixels only (out-of-range runs are no-ops, partial
overlaps touch exactly the in-range pixels); concretely, a run starting at
x = -5 of length 10 on a width-20 buffer writes exactly bytes 0..4 of page
0 and nothing else. -/
theorem claim_C5_hline_clipping :
    (∀ (W H : ℕ) (x y w : ℤ) (c : ℕ) (st : DState),
      ((_drawFastHLineInternal W H x y w c st).1).buffer
        = naiveHLineClipped W H x y w c st.buffer)
  ∧ (∀ j, j < 20 →
      ((_drawFastHLineInternal 20 8 (-5) 0 10 SSD1315_WHITE (initialState 20 8)).1).buffer j
        = if j < 5 then 1 else 0) := by
  refine ⟨hlineInternal_buffer, ?_⟩
  decide

/-- C5 (witness): the concrete clipped run evaluated at byte 3 (written)
and the general statement instantiated at that run. -/
theorem claim_C5_hline_clipping_witness :
    (3 < 20)
  ∧ ((_drawFastHLineInternal 20 8 (-5) 0 10 SSD1315_WHITE (initialState 20 8)).1).buffer 3
      = if 3 < 5 then 1 else 0 := by
  exact ⟨by decide, claim_C5_hline_clipping.2 3 (by decide)⟩


theorem naiveHLineCore_one (W c x y : ℕ) (buf : Nat → Nat) :
    naiveHLineCore W c x y 1 buf = refPixelOp W c x y buf := by
  simp [naiveHLineCore, List.range_succ]

theorem naiveHLineCore_congr3 (W c : ℕ) (x1 x2 y1 y2 w1 w2 : ℕ) (buf : Nat → Nat)
    (hx : x1 = x2) (hy : y1 = y2) (hw : w1 = w2) :
    naiveHLineCore W c x1 y1 w1 buf = naiveHLineCore W c x2 y2 w2 buf := by
  rw [hx, hy, hw]

theorem xor_invol (b v : ℕ) (hb : b < 256) :
    (((b ^^^ v) &&& 255) ^^^ v) &&& 255 = b := by
  apply Nat.eq_of_testBit_eq; intro k
  by_cases hk : k < 8
  · simp only [Nat.testBit_and, Nat.testBit_xor, testBit_255, hk, decide_True, Bool.and_true]
    cases b.testBit k <;> cases v.testBit k <;> rfl
  · have hbk : b.testBit k = false := by
      apply Nat.testBit_lt_two_pow
      calc b < 256 := hb
        _ = 2 ^ 8 := by norm_num
        _ ≤ 2 ^ k := Nat.pow_le_pow_right (by norm_num) (by omega)
    simp only [Nat.testBit_and, Nat.testBit_xor, testBit_255, hk, decide_False,
      Bool.and_false, hbk]

/-- Clearing the pixel: a BLACK one-pixel horizontal run at in-range
`(px, py)` leaves bit `py % 8` of its byte at 0, whatever the previous
buffer contents. -/
theorem black_pixel_clear (W H : ℕ) (px py : ℕ) (hpx : px < W) (hpy : py < H)
    (st : DState) :
    getPixel W ((_drawFastHLineInternal W H px py 1 SSD1315_BLACK st).1).buffer px py
      = false := by
  rw [hlineInternal_buffer]
  have hcl : naiveHLineClipped W H px py 1 SSD1315_BLACK st.buffer
      = naiveHLineCore W SSD1315_BLACK px py 1 st.buffer := by
    simp only [naiveHLineClipped]
    rw [if_pos (by constructor <;> omega)]
    rw [if_pos (by omega)]
    apply naiveHLineCore_congr3 <;> omega
  rw [hcl, naiveHLineCore_one, refPixelOp, getPixel]
  rw [applyMaskAt, if_neg (by decide), if_pos rfl]
  simp only [setByte, if_pos rfl]
  have hklt : py % 8 < 8 := Nat.mod_lt _ (by norm_num)
  simp [Nat.testBit_and, Nat.testBit_xor, testBit_255, testBit_one_shift, hklt]

/-- Double-INVERSE on the same horizontal run restores the framebuffer
(for byte values in the `Uint8Array` range). -/
theorem hline_inverse_involution (W H : ℕ) (x y w : ℤ) (st : DState)
    (hb : ∀ j, st.buffer j < 256) :
    ((_drawFastHLineInternal W H x y w SSD1315_INVERSE
        ((_drawFastHLineInternal W H x y w SSD1315_INVERSE st).1)).1).buffer
      = st.buffer := by
  have hcore : ∀ (xn yn wn : ℕ) (buf : Nat → Nat), (∀ j, buf j < 256) →
      naiveHLineCore W SSD1315_INVERSE xn yn wn
        (naiveHLineCore W SSD1315_INVERSE xn yn wn buf) = buf := by
    intro xn yn wn buf hbuf
    rw [← hlineCore_eq_naive, ← hlineCore_eq_naive]
    rw [hlineCore, if_neg (by decide), if_neg (by decide), if_pos rfl]
    rw [hlineCore, if_neg (by decide), if_neg (by decide), if_pos rfl]
    rw [hlineLoop_fst, hlineLoop_fst]
    funext j
    by_cases hj : xn + yn / 8 * W ≤ j ∧ j < xn + yn / 8 * W + wn
    · rw [if_pos hj]
      dsimp only
      rw [if_pos hj]
      exact xor_invol _ _ (hbuf j)
    · rw [if_neg hj]
      dsimp only
      rw [if_neg hj]
  rw [hlineInternal_buffer, hlineInternal_buffer]
  simp only [naiveHLineClipped]
  by_cases hy : 0 ≤ y ∧ y < (H : ℤ)
  · rw [if_pos hy, if_pos hy]
    by_cases hs : max x 0 < min (x + w) (W : ℤ)
    · rw [if_pos hs, if_pos hs]
      exact hcore _ _ _ _ hb
    · rw [if_neg hs, if_neg hs]
  · rw [if_neg hy, if_neg hy]

/-- C9: writing a pixel WHITE then BLACK yields bit 0 regardless of any even
number of intervening INVERSE runs over it, and applying the same INVERSE
run twice restores the framebuffer (INVERSE is an involution). -/
theorem claim_C9_toggle_parity (W H : ℕ) (px py : ℕ) (hpx : px < W) (hpy : py < H)
    (st : DState) (L : List (ℤ × ℤ × ℤ))
    (heven : (L.countP (fun t => decide (coversPixel W H t.1 t.2.1 t.2.2 px py))) % 2 = 0) :
    getPixel W ((_drawFastHLineInternal W H px py 1 SSD1315_BLACK
        (L.foldl
          (fun s t => (_drawFastHLineInternal W H t.1 t.2.1 t.2.2 SSD1315_INVERSE s).1)
          ((_drawFastHLineInternal W H px py 1 SSD1315_WHITE st).1))).1).buffer px py
      = false
  ∧ (∀ (x y w : ℤ) (st2 : DState), (∀ j, st2.buffer j < 256) →
      ((_drawFastHLineInternal W H x y w SSD1315_INVERSE
          ((_drawFastHLineInternal W H x y w SSD1315_INVERSE st2).1)).1).buffer
        = st2.buffer) := by
  constructor
  · exact black_pixel_clear W H px py hpx hpy _
  · intro x y w st2 hb
    exact hline_inverse_involution W H x y w st2 hb

/-- C9 (witness): a 4x8 display, pixel (1,2), two INVERSE runs over the
whole row in between. -/
theorem claim_C9_toggle_parity_witness :
    (1 < 4) ∧ (2 < 8)
  ∧ (([((0 : ℤ), (2 : ℤ), (4 : ℤ)), ((0 : ℤ), (2 : ℤ), (4 : ℤ))].countP
      (fun t => decide (coversPixel 4 8 t.1 t.2.1 t.2.2 1 2))) % 2 = 0)
  ∧ getPixel 4 ((_drawFastHLineInternal 4 8 1 2 1 SSD1315_BLACK
      ([((0 : ℤ), (2 : ℤ), (4 : ℤ)), ((0 : ℤ), (2 : ℤ), (4 : ℤ))].foldl
        (fun s t => (_drawFastHLineInternal 4 8 t.1 t.2.1 t.2.2 SSD1315_INVERSE s).1)
        ((_drawFastHLineInternal 4 8 1 2 1 SSD1315_WHITE (initialState 4 8)).1))).1).buffer 1 2
      = false := by
  refine ⟨by decide, by decide, by decide, ?_⟩
  exact (claim_C9_toggle_parity 4 8 1 2 (by decide) (by decide) (initialState 4 8)
    [((0 : ℤ), (2 : ℤ), (4 : ℤ)), ((0 : ℤ), (2 : ℤ), (4 : ℤ))] (by decide)).1


theorem fold_setByte_const (W : ℕ) :
    ∀ (n : ℕ) (buf : Nat → Nat) (idx : ℕ),
      (List.range n).foldl (fun b k => setByte b (idx + k * W) 255) buf
        = fun j => if j ∈ (List.range n).map (fun k => idx + k * W) then 255 else buf j := by
  intro n
  induction n with
  | zero =>
    intro buf idx
    funext j
    rw [if_neg (by simp)]
    rfl
  | succ n ih =>
    intro buf idx
    rw [List.range_succ, List.foldl_append, List.foldl_cons, List.foldl_nil, ih,
      List.map_append]
    funext j
    by_cases hj : j = idx + n * W
    · subst hj
      rw [if_pos (List.mem_append.mpr (Or.inr (by simp)))]
      simp [setByte]
    · have hne : setByte (fun j => if j ∈ (List.range n).map (fun k => idx + k * W) then 255
          else buf j) (idx + n * W) 255 j
          = if j ∈ (List.range n).map (fun k => idx + k * W) then 255 else buf j := by
        simp [setByte, hj]
      rw [hne]
      have hiff : (j ∈ (List.range n).map (fun k => idx + k * W))
          ↔ (j ∈ (List.range n).map (fun k => idx + k * W) ++ [n].map (fun k => idx + k * W)) := by
        simp [List.mem_append, hj]
      rw [if_congr hiff rfl rfl]

theorem vlineTail_other (W c : ℕ) (h0 : c ≠ SSD1315_BLACK) (h1 : c ≠ SSD1315_WHITE)
    (h2 : c ≠ SSD1315_INVERSE) (idx h : ℕ) (buf : Nat → Nat) :
    (vlineTail W c buf idx h).1
      = fun j => if j ∈ (List.range (h / 8)).map (fun k => idx + k * W) then 255
          else buf j := by
  simp only [vlineTail]
  by_cases h8 : 8 ≤ h
  · rw [if_pos h8, if_neg h2]
    rw [show (fun (_ : ℕ) => if c ≠ SSD1315_BLACK then 0xFF else 0x00)
        = (fun (_ : ℕ) => (255 : ℕ)) by funext u; rw [if_pos h0]]
    rw [vlineByteLoop_spec _ _ _ _ _ h8]
    dsimp only
    by_cases hh : h % 8 = 0
    · rw [if_neg (by omega)]
      exact fold_setByte_const W (h / 8) buf idx
    · rw [if_pos (by omega)]
      rw [applyMaskAt_other _ _ _ _ h0 h1 h2]
      exact fold_setByte_const W (h / 8) buf idx
  · rw [if_neg h8]
    dsimp only
    have hrange : h / 8 = 0 := by omega
    rw [hrange]
    by_cases hh : h = 0
    · subst hh
      rw [if_neg (by omega)]
      funext j
      rw [if_neg (by simp)]
    · rw [if_pos hh]
      rw [applyMaskAt_other _ _ _ _ h0 h1 h2]
      funext j
      rw [if_neg (by simp)]


theorem vlineCore_other (W x y h c : ℕ) (buf : Nat → Nat)
    (h0 : c ≠ SSD1315_BLACK) (h1 : c ≠ SSD1315_WHITE) (h2 : c ≠ SSD1315_INVERSE) :
    (vlineCore W x y h c buf).1
      = fun j => if j ∈ (List.range ((h - (8 - y % 8) % 8) / 8)).map
            (fun k => x + ((y + 7) / 8 + k) * W)
          then 255 else buf j := by
  simp only [vlineCore]
  by_cases hm : y % 8 = 0
  · rw [if_neg (show ¬(y % 8 ≠ 0) from by omega)]
    dsimp only
    rw [if_pos (Nat.zero_le h)]
    dsimp only
    rw [vlineTail_other W c h0 h1 h2]
    rw [show h - 0 = h by omega]
    rw [show h - (8 - y % 8) % 8 = h by omega]
    rw [map_fun_congr (List.range (h / 8)) (fun k => x + y / 8 * W + k * W)
      (fun k => x + ((y + 7) / 8 + k) * W)
      (fun k => by rw [show (y + 7) / 8 = y / 8 by omega]; ring)]
  · rw [if_pos (show y % 8 ≠ 0 from hm)]
    dsimp only
    by_cases hlt : h < 8 - y % 8
    · rw [if_pos hlt, if_neg (show ¬(8 - y % 8 ≤ h) from by omega)]
      dsimp only
      rw [applyMaskAt_other _ _ _ _ h0 h1 h2]
      rw [show (h - (8 - y % 8) % 8) / 8 = 0 by omega]
      funext j
      rw [if_neg (by simp)]
    · rw [if_neg hlt, if_pos (show 8 - y % 8 ≤ h from by omega)]
      dsimp only
      rw [applyMaskAt_other _ _ _ _ h0 h1 h2]
      rw [vlineTail_other W c h0 h1 h2]
      rw [show h - (8 - y % 8) % 8 = h - (8 - y % 8) by omega]
      rw [map_fun_congr (List.range ((h - (8 - y % 8)) / 8))
        (fun k => x + y / 8 * W + W + k * W)
        (fun k => x + ((y + 7) / 8 + k) * W)
        (fun k => by rw [show (y + 7) / 8 = y / 8 + 1 by omega]; ring)]

theorem hline_window (W H : ℕ) (x y w : ℤ) (c : ℕ) (st : DState)
    (hy : 0 ≤ y ∧ y < (H : ℤ)) (hs : max x 0 < min (x + w) (W : ℤ)) :
    windowRect ((_drawFastHLineInternal W H x y w c st).1)
      = unionRect (windowRect st) (max x 0, y, min (x + w) (W : ℤ) - 1, y) := by
  simp only [_drawFastHLineInternal]
  split_ifs with h1 h2 h3 h4 h5 h6
  all_goals try (exfalso; omega)
  all_goals simp only [windowRect, unionRect]
  all_goals simp only [Prod.mk.injEq]
  all_goals exact ⟨by omega, trivial, by omega, trivial⟩

theorem vline_window (W H : ℕ) (x y h : ℤ) (c : ℕ) (st : DState)
    (hx : 0 ≤ x ∧ x < (W : ℤ)) (hs : max y 0 < min (y + h) (H : ℤ)) :
    windowRect ((_drawFastVLineInternal W H x y h c st).1)
      = unionRect (windowRect st) (x, max y 0, x, min (y + h) (H : ℤ) - 1) := by
  simp only [_drawFastVLineInternal]
  split_ifs with h1 h2 h3 h4 h5 h6
  all_goals try (exfalso; omega)
  all_goals simp only [windowRect, unionRect]
  all_goals simp only [Prod.mk.injEq]
  all_goals exact ⟨trivial, by omega, trivial, by omega⟩


/-- C10 (counterexample): a vertical run of height 8 from (0,0) with the
out-of-range color 3 on a 1x8 display overwrites framebuffer byte 0 with
0xFF (the whole-byte middle loop writes `val = 0xFF` for any color other
than BLACK), so the buffer does not stay unchanged. -/
theorem claim_C10_counterexample :
    ¬ (((_drawFastVLineInternal 1 8 0 0 8 3 (initialState 1 8)).1).buffer 0
        = (initialState 1 8).buffer 0) := by
  have hb : ((_drawFastVLineInternal 1 8 0 0 8 3 (initialState 1 8)).1).buffer
      = (vlineCore 1 0 0 8 3 (initialState 1 8).buffer).1 := by
    simp only [_drawFastVLineInternal]
    norm_num
    rfl
  rw [hb, vlineCore_other 1 0 0 8 3 _ (by decide) (by decide) (by decide)]
  decide


theorem other_form_congr (W : ℕ) (x1 x2 y1 y2 h1 h2 : ℕ) (buf : Nat → Nat)
    (hx : x1 = x2) (hy : y1 = y2) (hh : h1 = h2) :
    (fun j => if j ∈ (List.range ((h1 - (8 - y1 % 8) % 8) / 8)).map
        (fun k => x1 + ((y1 + 7) / 8 + k) * W) then 255 else buf j)
    = (fun j => if j ∈ (List.range ((h2 - (8 - y2 % 8) % 8) / 8)).map
        (fun k => x2 + ((y2 + 7) / 8 + k) * W) then (255 : ℕ) else buf j) := by
  rw [hx, hy, hh]

/-- C10 (amended): for a color outside BLACK/WHITE/INVERSE, a run that
survives clipping still expands the dirty window to its clipped rectangle
(the window update precedes the color switch), and a horizontal run leaves
every framebuffer byte unchanged; a vertical run, however, leaves only the
leading/trailing partial bytes unchanged while overwriting each whole
middle byte with 0xFF (the `val` test of the middle loop only distinguishes
BLACK), as the counterexample shows. -/
theorem claim_C10_amended :
    (∀ (W H : ℕ) (x y w : ℤ) (c : ℕ) (st : DState),
        c ≠ SSD1315_BLACK → c ≠ SSD1315_WHITE → c ≠ SSD1315_INVERSE →
        ((_drawFastHLineInternal W H x y w c st).1).buffer = st.buffer)
  ∧ (∀ (W H : ℕ) (x y w : ℤ) (c : ℕ) (st : DState),
        (0 ≤ y ∧ y < (H : ℤ)) → max x 0 < min (x + w) (W : ℤ) →
        windowRect ((_drawFastHLineInternal W H x y w c st).1)
          = unionRect (windowRect st) (max x 0, y, min (x + w) (W : ℤ) - 1, y))
  ∧ (∀ (W H : ℕ) (x y h : ℤ) (c : ℕ) (st : DState),
        (0 ≤ x ∧ x < (W : ℤ)) → max y 0 < min (y + h) (H : ℤ) →
        windowRect ((_drawFastVLineInternal W H x y h c st).1)
          = unionRect (windowRect st) (x, max y 0, x, min (y + h) (H : ℤ) - 1))
  ∧ (∀ (W H : ℕ) (x y h : ℤ) (c : ℕ) (st : DState),
        c ≠ SSD1315_BLACK → c ≠ SSD1315_WHITE → c ≠ SSD1315_INVERSE →
        (0 ≤ x ∧ x < (W : ℤ)) → max y 0 < min (y + h) (H : ℤ) →
        ((_drawFastVLineInternal W H x y h c st).1).buffer
          = fun j => if j ∈ (List.range
                (((min (y + h) (H : ℤ) - max y 0).toNat
                    - (8 - (max y 0).toNat % 8) % 8) / 8)).map
              (fun k => x.toNat + (((max y 0).toNat + 7) / 8 + k) * W)
            then 255 else st.buffer j) := by
  refine ⟨?_, hline_window, vline_window, ?_⟩
  · intro W H x y w c st h0 h1 h2
    rw [hlineInternal_buffer]
    simp only [naiveHLineClipped]
    split_ifs with ha hb
    · simp only [naiveHLineCore, refPixelOp]
      exact foldl_applyMask_other c h0 h1 h2 _ _ _ _
    · rfl
    · rfl
  · intro W H x y h c st hb0 hb1 hb2 hx hs
    simp only [_drawFastVLineInternal]
    split_ifs with h1 h2 h3 h4 h5 h6
    all_goals try (exfalso; omega)
    all_goals dsimp only
    all_goals rw [vlineCore_other _ _ _ _ _ _ hb0 hb1 hb2]
    all_goals exact other_form_congr W _ _ _ _ _ _ st.buffer rfl (by omega) (by omega)

/-- C10 (witness for the amended claim): the vertical-run component
evaluated at the input of the counterexample (1x8 display, full-height
run, color 3). -/
theorem claim_C10_amended_witness :
    ((3 : ℕ) ≠ SSD1315_BLACK) ∧ ((3 : ℕ) ≠ SSD1315_WHITE) ∧ ((3 : ℕ) ≠ SSD1315_INVERSE)
  ∧ ((0 : ℤ) ≤ 0 ∧ (0 : ℤ) < ((1 : ℕ) : ℤ))
  ∧ (max (0 : ℤ) 0 < min ((0 : ℤ) + 8) ((8 : ℕ) : ℤ))
  ∧ ((_drawFastVLineInternal 1 8 0 0 8 3 (initialState 1 8)).1).buffer
      = fun j => if j ∈ (List.range
            (((min ((0 : ℤ) + 8) ((8 : ℕ) : ℤ) - max (0 : ℤ) 0).toNat
                - (8 - (max (0 : ℤ) 0).toNat % 8) % 8) / 8)).map
          (fun k => (0 : ℤ).toNat + (((max (0 : ℤ) 0).toNat + 7) / 8 + k) * 1)
        then 255 else (initialState 1 8).buffer j := by
  refine ⟨by decide, by decide, by decide, by norm_num, by norm_num, ?_⟩
  exact claim_C10_amended.2.2.2 1 8 0 0 8 3 (initialState 1 8)
    (by decide) (by decide) (by decide) (by norm_num) (by norm_num)


theorem hlineCore_snd_cases (W x y w c : ℕ) (buf : Nat → Nat) :
    (hlineCore W x y w c buf).2 = (List.range w).map ((x + (y / 8) * W) + ·)
    ∨ (hlineCore W x y w c buf).2 = [] := by
  simp only [hlineCore]
  split_ifs <;> first | exact Or.inl (hlineLoop_snd _ _ _ _) | exact Or.inr rfl

theorem vlineTail_snd (W c : ℕ) (idx h : ℕ) (buf : Nat → Nat) :
    (vlineTail W c buf idx h).2
      = (List.range (h / 8)).map (fun k => idx + k * W)
        ++ (if h % 8 ≠ 0 then [idx + (h / 8) * W] else []) := by
  simp only [vlineTail]
  by_cases h8 : 8 ≤ h
  · rw [if_pos h8]
    by_cases hcI : c = SSD1315_INVERSE
    · rw [if_pos hcI, vlineByteLoop_spec _ _ _ _ _ h8]
      dsimp only
      by_cases hh : h % 8 = 0
      · simp [hh]
      · simp [hh]
    · rw [if_neg hcI, vlineByteLoop_spec _ _ _ _ _ h8]
      dsimp only
      by_cases hh : h % 8 = 0
      · simp [hh]
      · simp [hh]
  · rw [if_neg h8]
    dsimp only
    have h80 : h / 8 = 0 := by omega
    have h8m : h % 8 = h := by omega
    rw [h80, h8m]
    by_cases hh : h = 0
    · subst hh
      simp
    · simp [hh]

theorem index_bound_page (W H xn q : ℕ) (hx : xn < W) (hq : 8 * q < H) :
    xn + q * W < W * ((H + 7) / 8) := by
  have h1 : xn + q * W < W + q * W := by omega
  have h2 : W + q * W = (q + 1) * W := by ring
  have h3 : q + 1 ≤ (H + 7) / 8 := by omega
  calc xn + q * W < W + q * W := h1
    _ = (q + 1) * W := h2
    _ ≤ ((H + 7) / 8) * W := Nat.mul_le_mul_right _ h3
    _ = W * ((H + 7) / 8) := by ring


theorem vlineCore_trace (W x y h c : ℕ) (hh1 : 1 ≤ h) (buf : Nat → Nat) (j : ℕ)
    (hj : j ∈ (vlineCore W x y h c buf).2) :
    ∃ q, j = x + q * W ∧ 8 * q < y + h := by
  revert hj
  simp only [vlineCore]
  by_cases hm : y % 8 = 0
  · rw [if_neg (show ¬(y % 8 ≠ 0) from by omega)]
    dsimp only
    rw [if_pos (Nat.zero_le h)]
    dsimp only
    rw [show h - 0 = h by omega]
    rw [vlineTail_snd, List.nil_append]
    intro hj
    rcases List.mem_append.mp hj with hj1 | hj2
    · rcases List.mem_map.mp hj1 with ⟨k, hk, hkj⟩
      have hk2 := List.mem_range.mp hk
      exact ⟨y / 8 + k, by rw [← hkj]; ring, by omega⟩
    · by_cases hp : h % 8 = 0
      · rw [if_neg (by omega)] at hj2
        simp at hj2
      · rw [if_pos (by omega)] at hj2
        have hje : j = x + y / 8 * W + h / 8 * W := by simpa using hj2
        exact ⟨y / 8 + h / 8, by rw [hje]; ring, by omega⟩
  · rw [if_pos (show y % 8 ≠ 0 from hm)]
    dsimp only
    by_cases hlt : h < 8 - y % 8
    · rw [if_neg (show ¬(8 - y % 8 ≤ h) from by omega)]
      dsimp only
      intro hj
      have hje : j = x + y / 8 * W := by simpa using hj
      exact ⟨y / 8, by rw [hje], by omega⟩
    · rw [if_pos (show 8 - y % 8 ≤ h from by omega)]
      dsimp only
      rw [vlineTail_snd]
      intro hj
      rcases List.mem_append.mp hj with hj0 | hj12
      · have hje : j = x + y / 8 * W := by simpa using hj0
        exact ⟨y / 8, by rw [hje], by omega⟩
      · rcases List.mem_append.mp hj12 with hj1 | hj2
        · rcases List.mem_map.mp hj1 with ⟨k, hk, hkj⟩
          have hk2 := List.mem_range.mp hk
          exact ⟨y / 8 + 1 + k, by rw [← hkj]; ring, by omega⟩
        · by_cases hp : (h - (8 - y % 8)) % 8 = 0
          · rw [if_neg (by omega)] at hj2
            simp at hj2
          · rw [if_pos (by omega)] at hj2
            have hje : j = x + y / 8 * W + W + (h - (8 - y % 8)) / 8 * W := by
              simpa using hj2
            exact ⟨y / 8 + 1 + (h - (8 - y % 8)) / 8, by rw [hje]; ring, by omega⟩

theorem hline_trace_bound (W H : ℕ) (xn yn wn c : ℕ) (buf : Nat → Nat)
    (hxw : xn + wn ≤ W) (hy : yn < H) (j : ℕ) (hj : j ∈ (hlineCore W xn yn wn c buf).2) :
    j < W * ((H + 7) / 8) := by
  rcases hlineCore_snd_cases W xn yn wn c buf with hcc | hcc
  · rw [hcc] at hj
    rcases List.mem_map.mp hj with ⟨k, hk, hkj⟩
    have hk2 := List.mem_range.mp hk
    rw [← hkj]
    show xn + yn / 8 * W + k < W * ((H + 7) / 8)
    rw [show xn + yn / 8 * W + k = (xn + k) + (yn / 8) * W by ring]
    exact index_bound_page W H (xn + k) (yn / 8) (by omega) (by omega)
  · rw [hcc] at hj
    simp at hj

theorem vline_trace_bound (W H xn yn hn c : ℕ) (buf : Nat → Nat) (hx : xn < W)
    (hyh : yn + hn ≤ H) (hh1 : 1 ≤ hn) (j : ℕ)
    (hj : j ∈ (vlineCore W xn yn hn c buf).2) : j < W * ((H + 7) / 8) := by
  rcases vlineCore_trace W xn yn hn c hh1 buf j hj with ⟨q, hq1, hq2⟩
  rw [hq1]
  exact index_bound_page W H xn q hx (by omega)

/-- C6: every framebuffer byte index accessed (read or written) by
`_drawFastHLineInternal` or `_drawFastVLineInternal`, for arbitrary integer
arguments, lies below `W * ceil(H/8)`; clipping happens before any
indexing. -/
theorem claim_C6_index_safety (W H : ℕ) (x y L : ℤ) (c : ℕ) (st : DState) :
    (∀ j ∈ (_drawFastHLineInternal W H x y L c st).2, j < W * ((H + 7) / 8))
  ∧ (∀ j ∈ (_drawFastVLineInternal W H x y L c st).2, j < W * ((H + 7) / 8)) := by
  constructor
  · simp only [_drawFastHLineInternal]
    split_ifs with h1 h2 h3 h4 h5 h6
    all_goals intro j hj
    all_goals try (exact absurd hj (List.not_mem_nil j))
    all_goals exact hline_trace_bound W H _ _ _ c _ (by omega) (by omega) j hj
  · simp only [_drawFastVLineInternal]
    split_ifs with h1 h2 h3 h4 h5 h6
    all_goals intro j hj
    all_goals try (exact absurd hj (List.not_mem_nil j))
    all_goals exact vline_trace_bound W H _ _ _ c _ (by omega) (by omega) (by omega) j hj

/-- C6 (witness): the clipped run from the C5 scenario accesses byte 0,
which is inside the 20-byte buffer of a 20x8 display. -/
theorem claim_C6_index_safety_witness :
    (0 ∈ (_drawFastHLineInternal 20 8 (-5) 0 10 SSD1315_WHITE (initialState 20 8)).2)
  ∧ 0 < 20 * ((8 + 7) / 8) := by
  refine ⟨by decide, ?_⟩
  exact (claim_C6_index_safety 20 8 (-5) 0 10 SSD1315_WHITE (initialState 20 8)).1 0
    (by decide)


theorem hline_nochange (W H : ℕ) (x y w : ℤ) (c : ℕ) (st : DState)
    (hns : ¬ ((0 ≤ y ∧ y < (H : ℤ)) ∧ max x 0 < min (x + w) (W : ℤ))) :
    (_drawFastHLineInternal W H x y w c st).1 = st := by
  simp only [_drawFastHLineInternal]
  split_ifs <;> first | rfl | (exfalso; omega)

theorem vline_nochange (W H : ℕ) (x y h : ℤ) (c : ℕ) (st : DState)
    (hns : ¬ ((0 ≤ x ∧ x < (W : ℤ)) ∧ max y 0 < min (y + h) (H : ℤ))) :
    (_drawFastVLineInternal W H x y h c st).1 = st := by
  simp only [_drawFastVLineInternal]
  split_ifs <;> first | rfl | (exfalso; omega)

theorem applyOp_window (W H : ℕ) (st : DState) (op : DrawOp) (hs : survives W H op) :
    windowRect (applyOp W H st op) = unionRect (windowRect st) (clippedRect W H op) := by
  cases op with
  | hline x y w c => exact hline_window W H x y w c st hs.1 hs.2
  | vline x y h c => exact vline_window W H x y h c st hs.1 hs.2

theorem applyOp_nochange (W H : ℕ) (st : DState) (op : DrawOp)
    (hns : ¬ survives W H op) : applyOp W H st op = st := by
  cases op with
  | hline x y w c => exact hline_nochange W H x y w c st hns
  | vline x y h c => exact vline_nochange W H x y h c st hns

theorem applyOp_modify_survives (W H : ℕ) (st : DState) (op : DrawOp)
    (hmod : (applyOp W H st op).buffer ≠ st.buffer) : survives W H op := by
  by_contra hns
  exact hmod (by rw [applyOp_nochange W H st op hns])

theorem applyOps_window (W H : ℕ) :
    ∀ (ops : List DrawOp) (st : DState), allModify W H st ops →
      windowRect (applyOps W H st ops)
        = ops.foldl (fun r op => unionRect r (clippedRect W H op)) (windowRect st) := by
  intro ops
  induction ops with
  | nil => intro st _; rfl
  | cons op rest ih =>
    intro st hmod
    simp only [allModify] at hmod
    simp only [applyOps, List.foldl_cons]
    have hs := applyOp_modify_survives W H st op hmod.1
    have h1 := ih (applyOp W H st op) hmod.2
    simp only [applyOps] at h1
    rw [h1, applyOp_window W H st op hs]

theorem unionRect_reset (W H : ℕ) (st : DState) (op : DrawOp) (hs : survives W H op) :
    unionRect (windowRect (_resetDirtyWindow W H st)) (clippedRect W H op)
      = clippedRect W H op := by
  cases op with
  | hline x y w c =>
    have hs2 : (0 ≤ y ∧ y < (H : ℤ)) ∧ max x 0 < min (x + w) (W : ℤ) := hs
    simp only [_resetDirtyWindow, windowRect, unionRect, clippedRect]
    simp only [Prod.mk.injEq]
    refine ⟨by omega, by omega, by omega, by omega⟩
  | vline x y h c =>
    have hs2 : (0 ≤ x ∧ x < (W : ℤ)) ∧ max y 0 < min (y + h) (H : ℤ) := hs
    simp only [_resetDirtyWindow, windowRect, unionRect, clippedRect]
    simp only [Prod.mk.injEq]
    refine ⟨by omega, by omega, by omega, by omega⟩

/-- C7: starting from a freshly reset dirty window, after a sequence of
draws that each modify the framebuffer the window is exactly the bounding
box (min of mins, max of maxes) of the clipped rectangles touched; any
`display()` call resets the window to the empty sentinel state, and a
subsequent `display()` with no intervening draws emits zero command lists
and zero data blocks. -/
theorem claim_C7_dirty_window :
    (∀ (W H : ℕ) (o : DrawOp) (ops : List DrawOp) (st : DState),
      allModify W H (_resetDirtyWindow W H st) (o :: ops) →
      windowRect (applyOps W H (_resetDirtyWindow W H st) (o :: ops))
        = ops.foldl (fun r op => unionRect r (clippedRect W H op)) (clippedRect W H o))
  ∧ (∀ (W H : ℕ) (st : DState),
      (display W H st).1 = _resetDirtyWindow W H st
      ∧ (display W H ((display W H st).1)).2.1 = []
      ∧ (display W H ((display W H st).1)).2.2 = []) := by
  constructor
  · intro W H o ops st hmod
    rw [applyOps_window W H (o :: ops) _ hmod]
    simp only [List.foldl_cons]
    have hmod1 : (applyOp W H (_resetDirtyWindow W H st) o).buffer
        ≠ (_resetDirtyWindow W H st).buffer := by
      simp only [allModify] at hmod
      exact hmod.1
    have hs := applyOp_modify_survives W H _ o hmod1
    rw [unionRect_reset W H st o hs]
  · intro W H st
    have h1 : (display W H st).1 = _resetDirtyWindow W H st := by
      simp only [display]
      split_ifs <;> rfl
    refine ⟨h1, ?_, ?_⟩
    · rw [h1]
      simp only [display, _resetDirtyWindow]
      rw [if_neg (show ¬((0 : ℤ) < -1 - (W : ℤ) + 1) from by omega)]
    · rw [h1]
      simp only [display, _resetDirtyWindow]
      rw [if_neg (show ¬((0 : ℤ) < -1 - (W : ℤ) + 1) from by omega)]

/-- C7 (witness): one modifying draw (a white 2-pixel horizontal run at the
origin of a 4x8 display) starting from a reset window. -/
theorem claim_C7_dirty_window_witness :
    allModify 4 8 (_resetDirtyWindow 4 8 (initialState 4 8))
      [DrawOp.hline 0 0 2 SSD1315_WHITE]
  ∧ windowRect (applyOps 4 8 (_resetDirtyWindow 4 8 (initialState 4 8))
      [DrawOp.hline 0 0 2 SSD1315_WHITE])
    = ([] : List DrawOp).foldl (fun r op => unionRect r (clippedRect 4 8 op))
        (clippedRect 4 8 (DrawOp.hline 0 0 2 SSD1315_WHITE)) := by
  have hmod : allModify 4 8 (_resetDirtyWindow 4 8 (initialState 4 8))
      [DrawOp.hline 0 0 2 SSD1315_WHITE] := by
    refine ⟨?_, trivial⟩
    intro heq
    have h0 := congrFun heq 0
    revert h0
    decide
  exact ⟨hmod, claim_C7_dirty_window.1 4 8 (DrawOp.hline 0 0 2 SSD1315_WHITE) []
    (initialState 4 8) hmod⟩

end SSD1315
